import Mathlib

/-!
Verification of the decision layer of the project-kickoff generator.

The development shallowly embeds the TypeScript sources:
* `src/core/constraints.ts` — constraint engine (`CONSTRAINTS`, `validateConstraints`)
  and the unified stack validator (`validateStack`).
* the fragment registry / resolver (`validateFragmentDependencies`,
  `resolveFragmentOrder`) and the generation planner (`createGenerationPlan`).
* `src/recommender/scorer.ts` — the recommendation scorer (`scoreOption`,
  `scoreAndRankOptions`) with the weight vectors of `src/recommender/types.ts`.

TypeScript `number` is embedded as `ℚ` (all arithmetic in the scorer is exact
decimal arithmetic on small values), string union types as `String`, optional
fields as `Option` (or as a list defaulting to `[]` where the code only ever
iterates them), and the one exception-throwing function as `Except`.
-/

namespace Kickoff

/-! ## Constraint engine (src/core/constraints.ts) -/

/-- The fields of `ProjectConfig` (src/lib/types.ts) that the constraint
predicates read.  All of them are string-typed unions in the source. -/
structure ProjectConfig where
  type : String
  runtime : String
  databaseProvider : String
  orm : String
  authProvider : String
  vectorDB : String
  embeddingProvider : String
  localAI : String
deriving DecidableEq, Repr

inductive ConstraintSeverity where
  | error
  | warning
deriving DecidableEq, Repr

structure Constraint where
  id : String
  severity : ConstraintSeverity
  check : ProjectConfig → Bool
  message : String
  docs : Option String := none

structure ConstraintViolation where
  id : String
  message : String
  docs : Option String
deriving DecidableEq, Repr

structure ValidationResult where
  valid : Bool
  errors : List ConstraintViolation
  warnings : List ConstraintViolation
deriving DecidableEq, Repr

/-- The registered constraint list, transliterated from `CONSTRAINTS`. -/
def CONSTRAINTS : List Constraint := [
  { id := "d1-requires-drizzle",
    severity := .error,
    check := fun config => config.databaseProvider == "d1" && config.orm == "prisma",
    message := "Cloudflare D1 requires Drizzle ORM. Prisma has significant edge compatibility issues with D1 including large bundle sizes and transaction incompatibility.",
    docs := some "https://orm.drizzle.team/docs/connect-cloudflare-d1" },
  { id := "better-auth-nextjs-bun",
    severity := .error,
    check := fun config =>
      config.authProvider == "better-auth" &&
      config.type == "nextjs" &&
      config.runtime == "bun",
    message := "Better-Auth has known build failures with Next.js + Bun runtime. Use Node.js runtime or switch to a different auth provider.",
    docs := some "https://github.com/better-auth/better-auth/issues/6781" },
  { id := "turbopuffer-latency",
    severity := .warning,
    check := fun config => config.vectorDB == "turbopuffer",
    message := "Turbopuffer uses object storage architecture with ~500ms P90 cold query latency. Ensure your UI has loading states for search operations. Consider Pinecone or Qdrant for sub-50ms latency requirements.",
    docs := some "https://turbopuffer.com/" },
  { id := "prisma-edge-warning",
    severity := .warning,
    check := fun config =>
      config.orm == "prisma" &&
      (config.runtime == "bun" || config.type == "hono-api"),
    message := "Prisma on edge runtimes requires the Prisma Accelerate or Data Proxy. Consider Drizzle for simpler edge deployment.",
    docs := some "https://www.prisma.io/docs/orm/prisma-client/deployment/edge/overview" },
  { id := "firebase-orm-mismatch",
    severity := .error,
    check := fun config =>
      config.databaseProvider == "firebase" &&
      !(config.orm == "none"),
    message := "Firebase Firestore is a NoSQL document database and does not work with SQL ORMs like Drizzle or Prisma. Set ORM to \"none\" when using Firebase." },
  { id := "mongodb-sql-orm",
    severity := .error,
    check := fun config =>
      config.databaseProvider == "mongodb-local" &&
      !(["none", "prisma"].contains config.orm),
    message := "MongoDB is a NoSQL database. Only Prisma supports MongoDB among SQL-style ORMs. Use Prisma or set ORM to \"none\" for Mongoose." },
  { id := "convex-orm-mismatch",
    severity := .error,
    check := fun config =>
      config.databaseProvider == "convex" &&
      !(config.orm == "none"),
    message := "Convex is a reactive BaaS with its own data layer. External ORMs are not compatible. Set ORM to \"none\"." },
  { id := "pocketbase-orm-mismatch",
    severity := .error,
    check := fun config =>
      config.databaseProvider == "pocketbase" &&
      !(config.orm == "none"),
    message := "PocketBase is a self-contained BaaS with built-in SQLite. External ORMs are not compatible. Set ORM to \"none\"." },
  { id := "auth-needs-database",
    severity := .warning,
    check := fun config =>
      !(config.authProvider == "none") &&
      !(["clerk", "auth0", "workos", "kinde"].contains config.authProvider) &&
      config.databaseProvider == "none",
    message := "Self-hosted auth providers like Better-Auth, Lucia, and AuthJS require a database to store sessions and users. Add a database or use a managed auth provider like Clerk." },
  { id := "vectordb-needs-embeddings",
    severity := .warning,
    check := fun config =>
      !(config.vectorDB == "none") &&
      config.embeddingProvider == "none",
    message := "You selected a vector database but no embedding provider. You will need to provide embeddings to store and query vectors." },
  { id := "mlx-apple-only",
    severity := .warning,
    check := fun config => config.localAI == "mlx",
    message := "MLX is optimized for Apple Silicon (M1/M2/M3/M4/M5). This project will only run on macOS with Apple Silicon." },
  { id := "supabase-vector-requires-supabase",
    severity := .error,
    check := fun config =>
      config.vectorDB == "supabase-vector" &&
      !(config.databaseProvider == "supabase"),
    message := "Supabase Vector is a pgvector integration and requires Supabase as the database provider." },
  { id := "supabase-auth-requires-supabase",
    severity := .error,
    check := fun config =>
      config.authProvider == "supabase-auth" &&
      !(config.databaseProvider == "supabase"),
    message := "Supabase Auth requires Supabase as the database provider." },
  { id := "convex-auth-requires-convex",
    severity := .error,
    check := fun config =>
      config.authProvider == "convex-auth" &&
      !(config.databaseProvider == "convex"),
    message := "Convex Auth requires Convex as the database provider." },
  { id := "firebase-auth-requires-firebase",
    severity := .error,
    check := fun config =>
      config.authProvider == "firebase-auth" &&
      !(config.databaseProvider == "firebase"),
    message := "Firebase Auth requires Firebase as the database provider." },
  { id := "pocketbase-auth-requires-pocketbase",
    severity := .error,
    check := fun config =>
      config.authProvider == "pocketbase-auth" &&
      !(config.databaseProvider == "pocketbase"),
    message := "PocketBase Auth requires PocketBase as the database provider." },
  { id := "python-orm-runtime-mismatch",
    severity := .error,
    check := fun config =>
      ["sqlalchemy", "tortoise", "sqlmodel"].contains config.orm &&
      !(config.runtime == "python"),
    message := "SQLAlchemy, Tortoise ORM, and SQLModel are Python ORMs and require Python runtime." },
  { id := "go-orm-runtime-mismatch",
    severity := .error,
    check := fun config =>
      ["gorm", "sqlx-go"].contains config.orm &&
      !(config.runtime == "go"),
    message := "GORM and sqlx are Go ORMs and require Go runtime." },
  { id := "rust-orm-runtime-mismatch",
    severity := .error,
    check := fun config =>
      ["diesel", "sqlx-rust", "sea-orm"].contains config.orm &&
      !(config.runtime == "rust"),
    message := "Diesel, SQLx, and SeaORM are Rust ORMs and require Rust runtime." },
  { id := "tanstack-requires-ts",
    severity := .error,
    check := fun config =>
      config.type == "tanstack-start" &&
      !(["node", "bun"].contains config.runtime),
    message := "TanStack Start is a TypeScript framework and requires Node.js or Bun runtime." }
]

/-- The violation record appended for a matching constraint. -/
def violationOf (c : Constraint) : ConstraintViolation :=
  { id := c.id, message := c.message, docs := c.docs }

/-- One step of the loop body of `validateConstraints`: a matching constraint
appends its violation to the bucket of its severity. -/
def violationStep (config : ProjectConfig)
    (acc : List ConstraintViolation × List ConstraintViolation) (c : Constraint) :
    List ConstraintViolation × List ConstraintViolation :=
  if c.check config then
    match c.severity with
    | .error => (acc.1 ++ [violationOf c], acc.2)
    | .warning => (acc.1, acc.2 ++ [violationOf c])
  else acc

/-- `validateConstraints` from src/core/constraints.ts. -/
def validateConstraints (config : ProjectConfig) : ValidationResult :=
  let res := CONSTRAINTS.foldl (violationStep config) ([], [])
  { valid := res.1.length == 0, errors := res.1, warnings := res.2 }

/-- The accumulating loop collects exactly the matching constraints of each
severity, in registration order. -/
theorem foldl_violationStep (config : ProjectConfig) (cs : List Constraint)
    (es ws : List ConstraintViolation) :
    cs.foldl (violationStep config) (es, ws) =
      (es ++ (cs.filter (fun c => c.check config && c.severity == ConstraintSeverity.error)).map violationOf,
       ws ++ (cs.filter (fun c => c.check config && c.severity == ConstraintSeverity.warning)).map violationOf) := by
  induction cs generalizing es ws with
  | nil => simp
  | cons c cs ih =>
    rw [List.foldl_cons]
    by_cases hchk : c.check config
    · cases hsev : c.severity with
      | error =>
        rw [show violationStep config (es, ws) c = (es ++ [violationOf c], ws) by
          simp [violationStep, hchk, hsev]]
        rw [ih]
        simp [List.filter_cons, hchk, hsev]
      | warning =>
        rw [show violationStep config (es, ws) c = (es, ws ++ [violationOf c]) by
          simp [violationStep, hchk, hsev]]
        rw [ih]
        simp [List.filter_cons, hchk, hsev]
    · rw [show violationStep config (es, ws) c = (es, ws) by
        simp [violationStep, hchk]]
      rw [ih]
      simp [List.filter_cons, hchk]

/-- Closed-form characterization of `validateConstraints`. -/
theorem validateConstraints_eq (config : ProjectConfig) :
    validateConstraints config =
      { valid := ((CONSTRAINTS.filter (fun c => c.check config && c.severity == ConstraintSeverity.error)).map violationOf).length == 0,
        errors := (CONSTRAINTS.filter (fun c => c.check config && c.severity == ConstraintSeverity.error)).map violationOf,
        warnings := (CONSTRAINTS.filter (fun c => c.check config && c.severity == ConstraintSeverity.warning)).map violationOf } := by
  unfold validateConstraints
  rw [foldl_violationStep]
  simp

/-- C1: for every `ProjectConfig`, `validateConstraints` returns a result whose
`valid` flag is true exactly when `errors` is empty; the error bucket is the
list of matching error-severity constraints and the warning bucket the list of
matching warning-severity constraints (so warnings never affect validity, and
each matching constraint contributes one violation to the bucket of its
declared severity). -/
theorem C1_partition_valid_iff_errors_empty (config : ProjectConfig) :
    ((validateConstraints config).valid = true ↔ (validateConstraints config).errors = []) ∧
    (validateConstraints config).errors =
      (CONSTRAINTS.filter (fun c => c.check config && c.severity == ConstraintSeverity.error)).map violationOf ∧
    (validateConstraints config).warnings =
      (CONSTRAINTS.filter (fun c => c.check config && c.severity == ConstraintSeverity.warning)).map violationOf := by
  rw [validateConstraints_eq]
  refine ⟨?_, rfl, rfl⟩
  simp [List.length_eq_zero]

/-- The `turbopuffer-latency` constraint as registered. -/
def turbopufferConstraint : Constraint :=
  { id := "turbopuffer-latency",
    severity := .warning,
    check := fun config => config.vectorDB == "turbopuffer",
    message := "Turbopuffer uses object storage architecture with ~500ms P90 cold query latency. Ensure your UI has loading states for search operations. Consider Pinecone or Qdrant for sub-50ms latency requirements.",
    docs := some "https://turbopuffer.com/" }

/-- C9: for every config with `vectorDB = "turbopuffer"` on which no other
constraint fires (no other conflicting selection), `validateConstraints`
returns `valid = true` with no errors and exactly one warning: the
Turbopuffer latency caveat. -/
theorem C9_turbopuffer_single_warning (config : ProjectConfig)
    (hvec : config.vectorDB = "turbopuffer")
    (h : ∀ c ∈ CONSTRAINTS, c.check config = (c.id == "turbopuffer-latency")) :
    (validateConstraints config).valid = true ∧
    (validateConstraints config).errors = [] ∧
    (validateConstraints config).warnings = [violationOf turbopufferConstraint] := by
  have herr : (CONSTRAINTS.filter (fun c => c.check config && c.severity == ConstraintSeverity.error))
      = (CONSTRAINTS.filter (fun c => (c.id == "turbopuffer-latency") && c.severity == ConstraintSeverity.error)) :=
    List.filter_congr (fun c hc => by rw [h c hc])
  have hwarn : (CONSTRAINTS.filter (fun c => c.check config && c.severity == ConstraintSeverity.warning))
      = (CONSTRAINTS.filter (fun c => (c.id == "turbopuffer-latency") && c.severity == ConstraintSeverity.warning)) :=
    List.filter_congr (fun c hc => by rw [h c hc])
  rw [validateConstraints_eq]
  refine ⟨?_, ?_, ?_⟩
  · rw [herr]; rfl
  · rw [herr]; rfl
  · rw [hwarn]; rfl

/-- A configuration selecting Turbopuffer with nothing else conflicting. -/
def turbopufferDemoConfig : ProjectConfig :=
  { type := "nextjs", runtime := "node", databaseProvider := "none",
    orm := "none", authProvider := "none", vectorDB := "turbopuffer",
    embeddingProvider := "openai", localAI := "none" }

/-- Witness for C9 at a concrete configuration. -/
theorem C9_turbopuffer_single_warning_witness :
    (validateConstraints turbopufferDemoConfig).valid = true ∧
    (validateConstraints turbopufferDemoConfig).errors = [] ∧
    (validateConstraints turbopufferDemoConfig).warnings = [violationOf turbopufferConstraint] :=
  C9_turbopuffer_single_warning turbopufferDemoConfig rfl (by decide)

/-! ## Unified stack validator (validateStack)

`validateStack` always runs `validateConstraints` and optionally consults the
LLM advisory validator.  The advisory call itself is an external asynchronous
service (src/core/llm-validator.ts); its outcome is embedded here as an
explicit `Option LLMValidationResult` argument: `none` when `options.useLLM`
is off, and `some r` for whatever record the advisory path produced (including
the synthetic `success = false` record built when no API key is available).
Confidence is a TypeScript number, embedded as `ℚ`. -/

structure LLMIssue where
  severity : String
  title : String
  description : String
  suggestion : Option String := none
deriving DecidableEq, Repr

structure LLMValidationResult where
  success : Bool
  analysis : String
  issues : List LLMIssue
  recommendations : List String
  confidence : ℚ
deriving DecidableEq, Repr

structure StackValidationResult where
  valid : Bool
  rulesResult : ValidationResult
  llmResult : Option LLMValidationResult
deriving DecidableEq, Repr

/-- The overall-validity computation of `validateStack`
(src/core/stack-validator.ts, lines 360-370): start from the rule result and
flip to invalid only on a successful, high-confidence advisory result that
contains an error-severity issue.  The human-readable `summary` string is not
modelled. -/
def validateStack (config : ProjectConfig) (llmResult : Option LLMValidationResult) :
    StackValidationResult :=
  let rulesResult := validateConstraints config
  let valid :=
    match llmResult with
    | some r =>
      if r.success && decide (r.confidence > 7/10) then
        if (r.issues.filter (fun i => i.severity == "error")).length > 0 then
          false
        else
          rulesResult.valid
      else
        rulesResult.valid
    | none => rulesResult.valid
  { valid := valid, rulesResult := rulesResult, llmResult := llmResult }

/-- C8: `validateStack` can only tighten the rule engine verdict.  When the
rule engine reports errors, the overall result is invalid regardless of the
advisory outcome (absent, failed, or disagreeing); when the rule engine is
clean, the overall result is flipped to invalid exactly when the advisory
result is successful, has confidence above 0.7, and contains at least one
error-severity issue. -/
theorem C8_validateStack_tightens_only (config : ProjectConfig)
    (llmResult : Option LLMValidationResult) :
    ((validateConstraints config).valid = false →
      (validateStack config llmResult).valid = false) ∧
    ((validateConstraints config).valid = true →
      ((validateStack config llmResult).valid = false ↔
        ∃ r, llmResult = some r ∧ r.success = true ∧ r.confidence > 7/10 ∧
          (r.issues.filter (fun i => i.severity == "error")).length > 0)) := by
  constructor
  · intro hrules
    cases llmResult with
    | none => simpa [validateStack] using hrules
    | some r =>
      simp only [validateStack]
      split
      · split
        · rfl
        · simpa using hrules
      · simpa using hrules
  · intro hrules
    cases llmResult with
    | none => simp [validateStack, hrules]
    | some r =>
      simp only [validateStack]
      by_cases hs : r.success = true
      · by_cases hc : r.confidence > 7/10
        · by_cases herr : (r.issues.filter (fun i => i.severity == "error")).length > 0
          · simp [hs, hc, herr]
          · simp [hs, hc, herr, hrules]
        · simp [hs, hc, hrules]
      · simp [hs, hrules]

/-- A high-confidence advisory failure report with one error-severity issue. -/
def demoLLMResult : LLMValidationResult :=
  { success := true,
    analysis := "analysis",
    issues := [{ severity := "error", title := "t", description := "d" }],
    recommendations := [],
    confidence := 9/10 }

/-- Witness for C8: a clean config is flipped to invalid by a successful
high-confidence advisory error, and an invalid config stays invalid. -/
theorem C8_validateStack_tightens_only_witness :
    (validateStack turbopufferDemoConfig (some demoLLMResult)).valid = false :=
  ((C8_validateStack_tightens_only turbopufferDemoConfig (some demoLLMResult)).2
    (by decide)).mpr ⟨demoLLMResult, rfl, rfl, by norm_num [demoLLMResult], by decide⟩

/-! ## Fragment registry, resolver and generation planner
(src/generator/types.ts, registry.ts, merger.ts)

`TemplateFragment` is embedded with the fields the registry, resolver and
planner read.  The TS-optional list fields (`dependencies`,
`incompatibleWith`, `envVars`, `postInstallSteps`) default to `[]`, which is
observationally identical in every modelled function (the code only guards
them with truthiness checks before iterating).  The `files`, `path` and
`description` fields feed only the out-of-scope file writer and are omitted.
`Record<string, string>` objects are embedded as ordered association lists
with JavaScript object-spread merge semantics. -/

structure EnvVarDefinition where
  key : String
  defaultValue : Option String := none
  description : String := ""
  required : Bool := false
  secret : Option Bool := none
deriving DecidableEq, Repr

structure PackageJsonFragment where
  dependencies : Option (List (String × String)) := none
  devDependencies : Option (List (String × String)) := none
  scripts : Option (List (String × String)) := none
  peerDependencies : Option (List (String × String)) := none
deriving DecidableEq, Repr

structure TemplateFragment where
  id : String
  name : String := ""
  category : String := ""
  dependencies : List String := []
  incompatibleWith : List String := []
  packageJson : Option PackageJsonFragment := none
  envVars : List EnvVarDefinition := []
  postInstallSteps : List String := []
deriving DecidableEq, Repr

structure DependencyValidation where
  valid : Bool
  missingDeps : List String
  conflicts : List String
deriving DecidableEq, Repr

/-- `validateFragmentDependencies` from registry.ts.  (The TS function also
receives the registry, but its body never reads it, so the parameter is
dropped here.)  Reports, without failing fast, every dependency id missing
from the selection and every `incompatibleWith` id present in it. -/
def validateFragmentDependencies (selectedFragments : List TemplateFragment) :
    DependencyValidation :=
  let selectedIds := selectedFragments.map (·.id)
  let missingDeps := selectedFragments.flatMap (fun fragment =>
    (fragment.dependencies.filter (fun dep => !(selectedIds.contains dep))).map
      (fun dep => fragment.id ++ " requires " ++ dep))
  let conflicts := selectedFragments.flatMap (fun fragment =>
    (fragment.incompatibleWith.filter (fun inc => selectedIds.contains inc)).map
      (fun inc => fragment.id ++ " is incompatible with " ++ inc))
  { valid := missingDeps.length == 0 && conflicts.length == 0,
    missingDeps := missingDeps,
    conflicts := conflicts }

/-- JavaScript object-spread merge `{...target, ...source}`: keys of `target`
in their order with values overridden by `source`, then the new keys of
`source` in their order. -/
def recordMerge (target source : List (String × String)) : List (String × String) :=
  target.map (fun kv =>
    match source.lookup kv.1 with
    | some v => (kv.1, v)
    | none => kv) ++
  source.filter (fun kv => (target.lookup kv.1).isNone)

/-- `mergePackageJson` from merger.ts, functionally: each present key-group of
`source` is spread over the accumulated group. -/
def mergePackageJson (target source : PackageJsonFragment) : PackageJsonFragment :=
  { dependencies :=
      match source.dependencies with
      | some s => some (recordMerge (target.dependencies.getD []) s)
      | none => target.dependencies,
    devDependencies :=
      match source.devDependencies with
      | some s => some (recordMerge (target.devDependencies.getD []) s)
      | none => target.devDependencies,
    scripts :=
      match source.scripts with
      | some s => some (recordMerge (target.scripts.getD []) s)
      | none => target.scripts,
    peerDependencies :=
      match source.peerDependencies with
      | some s => some (recordMerge (target.peerDependencies.getD []) s)
      | none => target.peerDependencies }

structure GenerationConflict where
  fragmentA : String
  fragmentB : String
  reason : String
deriving DecidableEq, Repr

structure GenerationPlan where
  fragments : List TemplateFragment
  mergedPackageJson : PackageJsonFragment
  allEnvVars : List EnvVarDefinition
  allPostInstallSteps : List String
  conflicts : List GenerationConflict
deriving DecidableEq, Repr

/-- Mutable accumulator of the main loop of `createGenerationPlan`. -/
structure PlanState where
  mergedPackageJson : PackageJsonFragment
  allEnvVars : List EnvVarDefinition
  seenEnvKeys : List String
  allPostInstallSteps : List String
  conflicts : List GenerationConflict
deriving DecidableEq, Repr

/-- One iteration of the main loop of `createGenerationPlan` (merger.ts,
lines 65-101): merge the manifest delta, append unseen env vars, append new
post-install steps, and record a conflict for every *other* fragment that this
fragment declares in `incompatibleWith`. -/
def planStep (fragments : List TemplateFragment) (acc : PlanState)
    (fragment : TemplateFragment) : PlanState :=
  let acc1 :=
    match fragment.packageJson with
    | some pj => { acc with mergedPackageJson := mergePackageJson acc.mergedPackageJson pj }
    | none => acc
  let acc2 := fragment.envVars.foldl (fun a envVar =>
    if a.seenEnvKeys.contains envVar.key then a
    else { a with allEnvVars := a.allEnvVars ++ [envVar],
                  seenEnvKeys := a.seenEnvKeys ++ [envVar.key] }) acc1
  let acc3 := fragment.postInstallSteps.foldl (fun a step =>
    if a.allPostInstallSteps.contains step then a
    else { a with allPostInstallSteps := a.allPostInstallSteps ++ [step] }) acc2
  fragments.foldl (fun a other =>
    if other.id == fragment.id then a
    else if fragment.incompatibleWith.contains other.id then
      { a with conflicts := a.conflicts ++
          [{ fragmentA := fragment.id, fragmentB := other.id,
             reason := fragment.name ++ " is incompatible with " ++ other.name }] }
    else a) acc3

/-- `createGenerationPlan` from merger.ts.  (The TS function also receives a
`GeneratorContext` that its body never reads; the parameter is dropped.) -/
def createGenerationPlan (fragments : List TemplateFragment) : GenerationPlan :=
  let st := fragments.foldl (planStep fragments)
    { mergedPackageJson :=
        { dependencies := some [], devDependencies := some [],
          scripts := some [], peerDependencies := some [] },
      allEnvVars := [], seenEnvKeys := [], allPostInstallSteps := [], conflicts := [] }
  { fragments := fragments,
    mergedPackageJson := st.mergedPackageJson,
    allEnvVars := st.allEnvVars,
    allPostInstallSteps := st.allPostInstallSteps,
    conflicts := st.conflicts }

/-- The conflict entries contributed by one fragment: one per *other* fragment
it declares incompatible. -/
def conflictBlock (fragments : List TemplateFragment) (fragment : TemplateFragment) :
    List GenerationConflict :=
  (fragments.filter (fun other =>
      !(other.id == fragment.id) && fragment.incompatibleWith.contains other.id)).map
    (fun other =>
      { fragmentA := fragment.id, fragmentB := other.id,
        reason := fragment.name ++ " is incompatible with " ++ other.name })

theorem planStep_conflicts (fragments : List TemplateFragment) (acc : PlanState)
    (fragment : TemplateFragment) :
    (planStep fragments acc fragment).conflicts = acc.conflicts ++ conflictBlock fragments fragment := by
  unfold planStep conflictBlock
  have henv : ∀ (evs : List EnvVarDefinition) (a : PlanState),
      (evs.foldl (fun a envVar =>
        if a.seenEnvKeys.contains envVar.key then a
        else { a with allEnvVars := a.allEnvVars ++ [envVar],
                      seenEnvKeys := a.seenEnvKeys ++ [envVar.key] }) a).conflicts = a.conflicts := by
    intro evs
    induction evs with
    | nil => intro a; rfl
    | cons e t ih =>
      intro a
      rw [List.foldl_cons]
      by_cases h : a.seenEnvKeys.contains e.key
      · rw [if_pos h, ih]
      · rw [if_neg h, ih]
  have hpost : ∀ (steps : List String) (a : PlanState),
      (steps.foldl (fun a step =>
        if a.allPostInstallSteps.contains step then a
        else { a with allPostInstallSteps := a.allPostInstallSteps ++ [step] }) a).conflicts = a.conflicts := by
    intro steps
    induction steps with
    | nil => intro a; rfl
    | cons s t ih =>
      intro a
      rw [List.foldl_cons]
      by_cases h : a.allPostInstallSteps.contains s
      · rw [if_pos h, ih]
      · rw [if_neg h, ih]
  have hconf : ∀ (others : List TemplateFragment) (a : PlanState),
      (others.foldl (fun a other =>
        if other.id == fragment.id then a
        else if fragment.incompatibleWith.contains other.id then
          { a with conflicts := a.conflicts ++
              [{ fragmentA := fragment.id, fragmentB := other.id,
                 reason := fragment.name ++ " is incompatible with " ++ other.name }] }
        else a) a).conflicts
      = a.conflicts ++ (others.filter (fun other =>
            !(other.id == fragment.id) && fragment.incompatibleWith.contains other.id)).map
          (fun other =>
            { fragmentA := fragment.id, fragmentB := other.id,
              reason := fragment.name ++ " is incompatible with " ++ other.name }) := by
    intro others
    induction others with
    | nil => intro a; simp
    | cons o t ih =>
      intro a
      rw [List.foldl_cons, List.filter_cons]
      by_cases h1 : (o.id == fragment.id) = true
      · have hb : (!(o.id == fragment.id) && fragment.incompatibleWith.contains o.id) = false := by
          rw [h1]; rfl
        rw [if_pos h1, hb, if_neg (show ¬(false = true) by decide)]
        exact ih a
      · rw [if_neg h1]
        rw [Bool.not_eq_true] at h1
        by_cases h2 : fragment.incompatibleWith.contains o.id = true
        · have hb : (!(o.id == fragment.id) && fragment.incompatibleWith.contains o.id) = true := by
            rw [h1, h2]; rfl
          rw [if_pos h2, hb, if_pos rfl, ih]
          simp
        · have hb : (!(o.id == fragment.id) && fragment.incompatibleWith.contains o.id) = false := by
            rw [h1, Bool.eq_false_iff.mpr h2]; rfl
          rw [if_neg h2, hb, if_neg (show ¬(false = true) by decide)]
          exact ih a
  cases hpj : fragment.packageJson with
  | none =>
    simp only [hpj]
    rw [hconf, hpost, henv]
  | some pj =>
    simp only [hpj]
    rw [hconf, hpost, henv]

/-- The conflict list of a generation plan enumerates, in fragment order, one
entry per ordered pair (declaring fragment, other fragment). -/
theorem createGenerationPlan_conflicts (fragments : List TemplateFragment) :
    (createGenerationPlan fragments).conflicts =
      fragments.flatMap (conflictBlock fragments) := by
  unfold createGenerationPlan
  suffices h : ∀ (l : List TemplateFragment) (acc : PlanState),
      (l.foldl (planStep fragments) acc).conflicts = acc.conflicts ++ l.flatMap (conflictBlock fragments) by
    simpa using h fragments _
  intro l
  induction l with
  | nil => intro acc; simp
  | cons f t ih =>
    intro acc
    rw [List.foldl_cons, ih, planStep_conflicts]
    simp

/-- Two fragments that each declare the other incompatible. -/
def fragX : TemplateFragment := { id := "x", name := "X", incompatibleWith := ["y"] }

def fragY : TemplateFragment := { id := "y", name := "Y", incompatibleWith := ["x"] }

/-- C5 counterexample: when two selected fragments declare each other in
`incompatibleWith`, `createGenerationPlan` records TWO conflict entries for
the single unordered pair (one per direction), not one. -/
theorem C5_counterexample_mutual_pair_double_counted :
    ((createGenerationPlan [fragX, fragY]).conflicts.map
        (fun c => (c.fragmentA, c.fragmentB))) = [("x", "y"), ("y", "x")] ∧
    ((createGenerationPlan [fragX, fragY]).conflicts.countP (fun c =>
        (c.fragmentA == "x" && c.fragmentB == "y") ||
        (c.fragmentA == "y" && c.fragmentB == "x"))) = 2 := by
  exact ⟨rfl, rfl⟩

theorem conflictBlock_count_eq (fragments : List TemplateFragment)
    (hnodup : (fragments.map (·.id)).Nodup)
    (u w : TemplateFragment) (hw : w ∈ fragments) (hnew : u.id ≠ w.id)
    (pred : GenerationConflict → Bool)
    (hpred : ∀ o : TemplateFragment,
      pred { fragmentA := u.id, fragmentB := o.id,
             reason := u.name ++ " is incompatible with " ++ o.name } = (o.id == w.id)) :
    (conflictBlock fragments u).countP pred
      = if w.id ∈ u.incompatibleWith then 1 else 0 := by
  unfold conflictBlock
  rw [List.countP_map, List.countP_filter]
  by_cases hmem : w.id ∈ u.incompatibleWith
  · rw [if_pos hmem]
    have hcongr : ∀ o ∈ fragments,
        (((pred ∘ fun (other : TemplateFragment) =>
            ({ fragmentA := u.id, fragmentB := other.id,
               reason := u.name ++ " is incompatible with " ++ other.name } : GenerationConflict)) o &&
          (!(o.id == u.id) && u.incompatibleWith.contains o.id)) = true)
        ↔ ((o.id == w.id) = true) := by
      intro o _
      simp only [Function.comp_apply, hpred o]
      by_cases ho : o.id = w.id
      · simp [ho, hmem, Ne.symm hnew]
      · simp [ho]
    rw [List.countP_congr hcongr]
    have h1 : fragments.countP (fun o => o.id == w.id)
        = (fragments.map (·.id)).count w.id := by
      rw [List.count_eq_countP, List.countP_map]
      rfl
    rw [h1, List.count_eq_one_of_mem hnodup (List.mem_map_of_mem (·.id) hw)]
  · rw [if_neg hmem]
    rw [List.countP_eq_zero.mpr]
    intro o _
    simp only [Function.comp_apply, hpred o]
    by_cases ho : o.id = w.id
    · simp [ho, hmem]
    · simp [ho]

theorem conflictBlock_count_zero (fragments : List TemplateFragment)
    (u : TemplateFragment) (pred : GenerationConflict → Bool)
    (hpred : ∀ o : TemplateFragment,
      pred { fragmentA := u.id, fragmentB := o.id,
             reason := u.name ++ " is incompatible with " ++ o.name } = false) :
    (conflictBlock fragments u).countP pred = 0 := by
  unfold conflictBlock
  rw [List.countP_map, List.countP_filter]
  rw [List.countP_eq_zero.mpr]
  intro o _
  simp only [Function.comp_apply, hpred o, Bool.false_and]
  simp

/-- C5 amended: for every fragment list with pairwise-distinct ids and every
unordered pair of distinct selected fragments, `createGenerationPlan` records
one conflict entry per *direction* of declared incompatibility: a one-sided
declaration yields exactly one entry, a mutual declaration yields exactly two
(the pair is double-counted), and no declaration yields none. -/
theorem C5_amended_one_conflict_per_direction (fragments : List TemplateFragment)
    (hnodup : (fragments.map (·.id)).Nodup)
    (f g : TemplateFragment) (hf : f ∈ fragments) (hg : g ∈ fragments)
    (hne : f.id ≠ g.id) :
    (createGenerationPlan fragments).conflicts.countP (fun c =>
        (c.fragmentA == f.id && c.fragmentB == g.id) ||
        (c.fragmentA == g.id && c.fragmentB == f.id))
      = (if g.id ∈ f.incompatibleWith then 1 else 0) +
        (if f.id ∈ g.incompatibleWith then 1 else 0) := by
  rw [createGenerationPlan_conflicts, List.countP_flatMap]
  have hmapeq : fragments.map
      ((List.countP (fun c =>
        (c.fragmentA == f.id && c.fragmentB == g.id) ||
        (c.fragmentA == g.id && c.fragmentB == f.id))) ∘ conflictBlock fragments)
      = fragments.map (fun h =>
          if h.id = f.id then (if g.id ∈ f.incompatibleWith then 1 else 0)
          else if h.id = g.id then (if f.id ∈ g.incompatibleWith then 1 else 0)
          else 0) := by
    apply List.map_congr_left
    intro h hmem
    simp only [Function.comp_apply]
    by_cases hidf : h.id = f.id
    · have hhf : h = f := List.inj_on_of_nodup_map hnodup hmem hf hidf
      subst hhf
      rw [if_pos hidf]
      exact conflictBlock_count_eq fragments hnodup h g hg hne _
        (fun o => by simp [hne])
    · by_cases hidg : h.id = g.id
      · have hhg : h = g := List.inj_on_of_nodup_map hnodup hmem hg hidg
        subst hhg
        rw [if_neg hidf, if_pos hidg]
        exact conflictBlock_count_eq fragments hnodup h f hf (Ne.symm hne) _
          (fun o => by simp [Ne.symm hne])
      · rw [if_neg hidf, if_neg hidg]
        exact conflictBlock_count_zero fragments h _
          (fun o => by simp [hidf, hidg])
  rw [hmapeq]
  have hsum : ∀ (l : List TemplateFragment) (cf cg : ℕ),
      (l.map (fun h =>
        if h.id = f.id then cf else if h.id = g.id then cg else 0)).sum
      = cf * l.countP (fun h => h.id == f.id) + cg * l.countP (fun h => h.id == g.id) := by
    intro l cf cg
    induction l with
    | nil => simp
    | cons h t ih =>
      rw [List.map_cons, List.sum_cons, List.countP_cons, List.countP_cons, ih]
      by_cases hidf : h.id = f.id
      · have hidg : ¬(h.id = g.id) := by rw [hidf]; exact hne
        simp only [beq_iff_eq, hidf, hidg, hne, if_pos rfl, if_neg hidg, if_false, if_true]
        simp [hne]
        ring
      · by_cases hidg : h.id = g.id
        · simp only [beq_iff_eq, hidf, hidg, if_pos rfl, if_neg hidf]
          simp [hidf, Ne.symm hne]
          ring
        · simp only [beq_iff_eq, hidf, hidg, if_neg hidf, if_neg hidg]
          simp [hidf, hidg]
  rw [hsum]
  have hcf : fragments.countP (fun h => h.id == f.id) = 1 := by
    have : fragments.countP (fun h => h.id == f.id) = (fragments.map (·.id)).count f.id := by
      rw [List.count_eq_countP, List.countP_map]; rfl
    rw [this, List.count_eq_one_of_mem hnodup (List.mem_map_of_mem (·.id) hf)]
  have hcg : fragments.countP (fun h => h.id == g.id) = 1 := by
    have : fragments.countP (fun h => h.id == g.id) = (fragments.map (·.id)).count g.id := by
      rw [List.count_eq_countP, List.countP_map]; rfl
    rw [this, List.count_eq_one_of_mem hnodup (List.mem_map_of_mem (·.id) hg)]
  rw [hcf, hcg, Nat.mul_one, Nat.mul_one]

/-- Witness for the amended C5 at the concrete mutual pair: two entries. -/
theorem C5_amended_one_conflict_per_direction_witness :
    (createGenerationPlan [fragX, fragY]).conflicts.countP (fun c =>
        (c.fragmentA == fragX.id && c.fragmentB == fragY.id) ||
        (c.fragmentA == fragY.id && c.fragmentB == fragX.id)) = 2 := by
  have h := C5_amended_one_conflict_per_direction [fragX, fragY]
    (by decide) fragX fragY (by decide) (by decide) (by decide)
  simpa using h

/-! ### Dependency-order resolution (`resolveFragmentOrder`, registry.ts)

The TS function is a depth-first traversal with a `visiting` set for back-edge
detection (throwing `Circular dependency detected involving <id>`) and a
`seen` set for memoization.  The recursion is embedded with explicit fuel;
`ResolveError.outOfFuel` is an artifact of the embedding and is proved
unreachable for the fuel budget `fragments.length + 1` used below. -/

inductive ResolveError where
  | circular (id : String)
  | outOfFuel
deriving DecidableEq, Repr

structure ResolveState where
  resolved : List TemplateFragment
  seen : List String
  visiting : List String
deriving DecidableEq, Repr

/-- Sequencing of the dependency loop body: stop at the first error. -/
def depsFold (step : String → ResolveState → Except ResolveError ResolveState) :
    List String → ResolveState → Except ResolveError ResolveState
  | [], st => .ok st
  | depId :: rest, st =>
    match step depId st with
    | .error e => .error e
    | .ok st2 => depsFold step rest st2

/-- The recursive `visit` closure of `resolveFragmentOrder`: memoized return on
`seen`, fatal circular error on `visiting`, otherwise visit the dependencies
found in the catalog first and append the fragment. -/
def visit (fragments : List TemplateFragment) :
    ℕ → TemplateFragment → ResolveState → Except ResolveError ResolveState
  | 0, _, _ => .error .outOfFuel
  | fuel + 1, fragment, st =>
    if fragment.id ∈ st.seen then .ok st
    else if fragment.id ∈ st.visiting then .error (.circular fragment.id)
    else
      match depsFold (fun depId s =>
          match fragments.find? (fun f => f.id == depId) with
          | some dep => visit fragments fuel dep s
          | none => .ok s)
        fragment.dependencies
        { st with visiting := fragment.id :: st.visiting } with
      | .error e => .error e
      | .ok st2 =>
        .ok { resolved := st2.resolved ++ [fragment],
              seen := fragment.id :: st2.seen,
              visiting := st2.visiting.erase fragment.id }

/-- The top-level loop of `resolveFragmentOrder`: visit every fragment. -/
def topPass (fragments : List TemplateFragment) :
    List TemplateFragment → ResolveState → Except ResolveError ResolveState
  | [], st => .ok st
  | fragment :: rest, st =>
    match visit fragments (fragments.length + 1) fragment st with
    | .error e => .error e
    | .ok st2 => topPass fragments rest st2

/-- `resolveFragmentOrder` from registry.ts. -/
def resolveFragmentOrder (fragments : List TemplateFragment) :
    Except ResolveError (List TemplateFragment) :=
  match topPass fragments fragments { resolved := [], seen := [], visiting := [] } with
  | .error e => .error e
  | .ok st => .ok st.resolved

/-- Fragment A of scenario 4: no dependencies. -/
def fragA : TemplateFragment := { id := "a", name := "A" }

/-- Fragment B of scenario 4: depends on A. -/
def fragB : TemplateFragment := { id := "b", name := "B", dependencies := ["a"] }

/-- C4: with fragments A (no dependencies) and B (dependencies [A]) both
selected — in either input order — `resolveFragmentOrder` returns exactly
[A, B]; with only B selected, `validateFragmentDependencies` returns (without
throwing) exactly one missing-dependency report and zero conflicts. -/
theorem C4_scenario_four :
    resolveFragmentOrder [fragA, fragB] = .ok [fragA, fragB] ∧
    resolveFragmentOrder [fragB, fragA] = .ok [fragA, fragB] ∧
    validateFragmentDependencies [fragB] =
      { valid := false, missingDeps := ["b requires a"], conflicts := [] } := by
  refine ⟨rfl, rfl, rfl⟩

/-- What a successful visit does to the state: the visiting stack is restored,
the resolved list only grows at the end, and seen ids are never removed. -/
def StateEvolves (s t : ResolveState) : Prop :=
  t.visiting = s.visiting ∧
  (∃ ext, t.resolved = s.resolved ++ ext) ∧
  (∀ x ∈ s.seen, x ∈ t.seen)

theorem StateEvolves.refl (s : ResolveState) : StateEvolves s s :=
  ⟨rfl, ⟨[], by simp⟩, fun _ h => h⟩

theorem StateEvolves.trans {a b c : ResolveState}
    (h1 : StateEvolves a b) (h2 : StateEvolves b c) : StateEvolves a c := by
  obtain ⟨hv1, ⟨e1, hr1⟩, hs1⟩ := h1
  obtain ⟨hv2, ⟨e2, hr2⟩, hs2⟩ := h2
  exact ⟨hv2.trans hv1, ⟨e1 ++ e2, by rw [hr2, hr1, List.append_assoc]⟩,
    fun x hx => hs2 x (hs1 x hx)⟩

/-- Chaining a step invariant through `depsFold`. -/
theorem depsFold_ok_rec {step : String → ResolveState → Except ResolveError ResolveState}
    {P : ResolveState → ResolveState → Prop}
    (htrans : ∀ {a b c}, P a b → P b c → P a c)
    (hrefl : ∀ a, P a a)
    (hstep : ∀ d s s', step d s = .ok s' → P s s') :
    ∀ {ds : List String} {st st' : ResolveState},
      depsFold step ds st = .ok st' → P st st' := by
  intro ds
  induction ds with
  | nil =>
    intro st st' h
    injection h with h
    rw [← h]
    exact hrefl st
  | cons d rest ih =>
    intro st st' h
    simp only [depsFold] at h
    cases hx : step d st with
    | error e => rw [hx] at h; exact absurd h (by simp)
    | ok s2 =>
      rw [hx] at h
      exact htrans (hstep d st s2 hx) (ih h)

theorem visit_evolves (fragments : List TemplateFragment) :
    ∀ (n : ℕ) (f : TemplateFragment) (st st' : ResolveState),
      visit fragments n f st = .ok st' → StateEvolves st st' := by
  intro n
  induction n with
  | zero => intro f st st' h; exact absurd h (by simp [visit])
  | succ m ih =>
    intro f st st' h
    simp only [visit] at h
    by_cases h1 : f.id ∈ st.seen
    · rw [if_pos h1] at h
      injection h with h
      rw [← h]
      exact StateEvolves.refl st
    · rw [if_neg h1] at h
      by_cases h2 : f.id ∈ st.visiting
      · rw [if_pos h2] at h; exact absurd h (by simp)
      · rw [if_neg h2] at h
        cases hd : depsFold (fun depId s =>
            match fragments.find? (fun f => f.id == depId) with
            | some dep => visit fragments m dep s
            | none => .ok s)
          f.dependencies { st with visiting := f.id :: st.visiting } with
        | error e => rw [hd] at h; exact absurd h (by simp)
        | ok st2 =>
          rw [hd] at h
          injection h with h
          have hev : StateEvolves { st with visiting := f.id :: st.visiting } st2 := by
            refine depsFold_ok_rec (P := StateEvolves)
              (fun h1 h2 => StateEvolves.trans h1 h2) StateEvolves.refl ?_ hd
            intro d s s' hstep
            cases hfind : fragments.find? (fun f => f.id == d) with
            | some dep =>
              rw [hfind] at hstep
              exact ih dep s s' hstep
            | none =>
              rw [hfind] at hstep
              injection hstep with hstep
              rw [← hstep]
              exact StateEvolves.refl s
          obtain ⟨hv, ⟨ext, hr⟩, hs⟩ := hev
          rw [← h]
          refine ⟨?_, ⟨ext ++ [f], ?_⟩, ?_⟩
          · show st2.visiting.erase f.id = st.visiting
            rw [hv]
            exact List.erase_cons_head f.id st.visiting
          · show st2.resolved ++ [f] = st.resolved ++ (ext ++ [f])
            rw [hr, List.append_assoc]
          · intro x hx
            exact List.mem_cons_of_mem _ (hs x hx)

/-- Topological validity of a resolved order with respect to a catalog:
every dependency of an entry that is present in the catalog appears at a
strictly earlier index. -/
def TopoInv (fragments resolved : List TemplateFragment) : Prop :=
  ∀ (i : ℕ) (hi : i < resolved.length), ∀ d ∈ (resolved.get ⟨i, hi⟩).dependencies,
    (∃ g ∈ fragments, g.id = d) →
    ∃ (j : ℕ) (hj : j < resolved.length), j < i ∧ (resolved.get ⟨j, hj⟩).id = d

/-- Invariant of the traversal state: `seen` is exactly the ids of `resolved`,
`resolved` draws from the catalog, and `resolved` is topologically valid. -/
def GoodState (fragments : List TemplateFragment) (s : ResolveState) : Prop :=
  (∀ x, x ∈ s.seen ↔ ∃ g ∈ s.resolved, g.id = x) ∧
  (∀ g ∈ s.resolved, g ∈ fragments) ∧
  TopoInv fragments s.resolved

theorem depsFold_good (fragments : List TemplateFragment)
    {step : String → ResolveState → Except ResolveError ResolveState}
    (hstep : ∀ d s s', step d s = .ok s' →
      StateEvolves s s' ∧ (GoodState fragments s →
        GoodState fragments s' ∧ ((∃ g ∈ fragments, g.id = d) → d ∈ s'.seen))) :
    ∀ {ds : List String} {st st' : ResolveState},
      depsFold step ds st = .ok st' → GoodState fragments st →
      GoodState fragments st' ∧ ∀ d ∈ ds, (∃ g ∈ fragments, g.id = d) → d ∈ st'.seen := by
  intro ds
  induction ds with
  | nil =>
    intro st st' h hg
    injection h with h
    rw [← h]
    exact ⟨hg, by simp⟩
  | cons d rest ih =>
    intro st st' h hg
    simp only [depsFold] at h
    cases hx : step d st with
    | error e => rw [hx] at h; exact absurd h (by simp)
    | ok s2 =>
      rw [hx] at h
      obtain ⟨hev, himp⟩ := hstep d st s2 hx
      obtain ⟨hg2, hd2⟩ := himp hg
      obtain ⟨hg', hrest⟩ := ih h hg2
      refine ⟨hg', ?_⟩
      intro d' hd' hpres
      rcases List.mem_cons.mp hd' with rfl | hmem
      · have hseen2 : d' ∈ s2.seen := hd2 hpres
        have hev2 : StateEvolves s2 st' :=
          depsFold_ok_rec (P := StateEvolves)
            (fun h1 h2 => StateEvolves.trans h1 h2) StateEvolves.refl
            (fun d s s' hy => (hstep d s s' hy).1) h
        exact hev2.2.2 d' hseen2
      · exact hrest d' hmem hpres

theorem visit_good (fragments : List TemplateFragment) :
    ∀ (n : ℕ) (f : TemplateFragment) (st st' : ResolveState), f ∈ fragments →
      visit fragments n f st = .ok st' → GoodState fragments st →
      GoodState fragments st' ∧ f.id ∈ st'.seen := by
  intro n
  induction n with
  | zero => intro f st st' _ h _; exact absurd h (by simp [visit])
  | succ m ih =>
    intro f st st' hf h hg
    simp only [visit] at h
    by_cases h1 : f.id ∈ st.seen
    · rw [if_pos h1] at h
      injection h with h
      rw [← h]
      exact ⟨hg, h1⟩
    · rw [if_neg h1] at h
      by_cases h2 : f.id ∈ st.visiting
      · rw [if_pos h2] at h; exact absurd h (by simp)
      · rw [if_neg h2] at h
        cases hd : depsFold (fun depId s =>
            match fragments.find? (fun f => f.id == depId) with
            | some dep => visit fragments m dep s
            | none => .ok s)
          f.dependencies { st with visiting := f.id :: st.visiting } with
        | error e => rw [hd] at h; exact absurd h (by simp)
        | ok st2 =>
          rw [hd] at h
          injection h with h
          have hstep' : ∀ d s s',
              (match fragments.find? (fun f => f.id == d) with
                | some dep => visit fragments m dep s
                | none => .ok s) = .ok s' →
              StateEvolves s s' ∧ (GoodState fragments s →
                GoodState fragments s' ∧ ((∃ g ∈ fragments, g.id = d) → d ∈ s'.seen)) := by
            intro d s s' hx
            cases hfind : fragments.find? (fun f => f.id == d) with
            | none =>
              rw [hfind] at hx
              injection hx with hx
              rw [← hx]
              refine ⟨StateEvolves.refl s, fun hgs => ⟨hgs, ?_⟩⟩
              rintro ⟨g, hgmem, hgid⟩
              have hnone := List.find?_eq_none.mp hfind g hgmem
              rw [hgid] at hnone
              simp at hnone
            | some dep =>
              rw [hfind] at hx
              have hdepmem : dep ∈ fragments := List.mem_of_find?_eq_some hfind
              have hdepid : dep.id = d := by
                have := List.find?_some hfind
                simpa using this
              refine ⟨visit_evolves fragments m dep s s' hx, fun hgs => ?_⟩
              obtain ⟨hg', hseen⟩ := ih dep s s' hdepmem hx hgs
              exact ⟨hg', fun _ => hdepid ▸ hseen⟩
          have hgood1 : GoodState fragments { st with visiting := f.id :: st.visiting } := hg
          obtain ⟨hg2, hdeps⟩ := depsFold_good fragments hstep' hd hgood1
          obtain ⟨hseen2, hsub2, htopo2⟩ := hg2
          rw [← h]
          refine ⟨⟨?_, ?_, ?_⟩, ?_⟩
          · intro x
            show x ∈ f.id :: st2.seen ↔ ∃ g ∈ st2.resolved ++ [f], g.id = x
            rw [List.mem_cons]
            constructor
            · rintro (rfl | hx)
              · exact ⟨f, by simp, rfl⟩
              · obtain ⟨g, hgmem, hgid⟩ := (hseen2 x).mp hx
                exact ⟨g, by simp [hgmem], hgid⟩
            · rintro ⟨g, hgmem, hgid⟩
              rcases List.mem_append.mp hgmem with hl | hr
              · exact Or.inr ((hseen2 x).mpr ⟨g, hl, hgid⟩)
              · rw [List.mem_singleton] at hr
                subst hr
                exact Or.inl hgid.symm
          · intro g hgmem
            have hgmem' : g ∈ st2.resolved ++ [f] := hgmem
            rcases List.mem_append.mp hgmem' with hl | hr
            · exact hsub2 g hl
            · rw [List.mem_singleton] at hr
              subst hr
              exact hf
          · intro i hi d hd' hpres
            show ∃ (j : ℕ) (hj : j < (st2.resolved ++ [f]).length), j < i ∧
              ((st2.resolved ++ [f]).get ⟨j, hj⟩).id = d
            have hi' : i < st2.resolved.length + 1 := by
              simpa using hi
            by_cases hlt : i < st2.resolved.length
            · have hgeti : (st2.resolved ++ [f]).get ⟨i, hi⟩ = st2.resolved.get ⟨i, hlt⟩ := by
                simp [List.get_eq_getElem, List.getElem_append_left hlt]
              rw [hgeti] at hd'
              obtain ⟨j, hj, hji, hjid⟩ := htopo2 i hlt d hd' hpres
              have hj' : j < (st2.resolved ++ [f]).length := by
                simp
                omega
              refine ⟨j, hj', hji, ?_⟩
              simp [List.get_eq_getElem, List.getElem_append_left hj]
              simpa [List.get_eq_getElem] using hjid
            · have hieq : i = st2.resolved.length := by omega
              have hgeti : (st2.resolved ++ [f]).get ⟨i, hi⟩ = f := by
                simp [List.get_eq_getElem, hieq]
              rw [hgeti] at hd'
              have hdseen : d ∈ st2.seen := hdeps d hd' hpres
              obtain ⟨g, hgmem, hgid⟩ := (hseen2 d).mp hdseen
              obtain ⟨j, hj, hjeq⟩ := List.getElem_of_mem hgmem
              have hj' : j < (st2.resolved ++ [f]).length := by
                simp
                omega
              refine ⟨j, hj', by omega, ?_⟩
              simp [List.get_eq_getElem, List.getElem_append_left hj]
              rw [hjeq, hgid]
          · exact List.mem_cons_self _ _

theorem topPass_evolves (fragments : List TemplateFragment) :
    ∀ (l : List TemplateFragment) (st st' : ResolveState),
      topPass fragments l st = .ok st' → StateEvolves st st' := by
  intro l
  induction l with
  | nil =>
    intro st st' h
    injection h with h
    rw [← h]
    exact StateEvolves.refl st
  | cons f rest ih =>
    intro st st' h
    simp only [topPass] at h
    cases hx : visit fragments (fragments.length + 1) f st with
    | error e => rw [hx] at h; exact absurd h (by simp)
    | ok st2 =>
      rw [hx] at h
      exact StateEvolves.trans (visit_evolves fragments _ f st st2 hx) (ih st2 st' h)

theorem topPass_good (fragments : List TemplateFragment) :
    ∀ (l : List TemplateFragment) (st st' : ResolveState), (∀ f ∈ l, f ∈ fragments) →
      topPass fragments l st = .ok st' → GoodState fragments st →
      GoodState fragments st' ∧ ∀ f ∈ l, f.id ∈ st'.seen := by
  intro l
  induction l with
  | nil =>
    intro st st' _ h hg
    injection h with h
    rw [← h]
    exact ⟨hg, by simp⟩
  | cons f rest ih =>
    intro st st' hsub h hg
    simp only [topPass] at h
    cases hx : visit fragments (fragments.length + 1) f st with
    | error e => rw [hx] at h; exact absurd h (by simp)
    | ok st2 =>
      rw [hx] at h
      obtain ⟨hg2, hfseen⟩ := visit_good fragments _ f st st2 (hsub f (by simp)) hx hg
      obtain ⟨hg', hrest⟩ := ih st2 st' (fun g hgm => hsub g (List.mem_cons_of_mem _ hgm)) h hg2
      refine ⟨hg', ?_⟩
      intro g hgm
      rcases List.mem_cons.mp hgm with rfl | hmem
      · exact (topPass_evolves fragments rest st2 st' h).2.2 g.id hfseen
      · exact hrest g hmem

/-- On success, the resolved order is topologically valid, draws from the
catalog, and covers every catalog id. -/
theorem resolveFragmentOrder_ok_props (fragments order : List TemplateFragment)
    (h : resolveFragmentOrder fragments = .ok order) :
    TopoInv fragments order ∧ (∀ g ∈ order, g ∈ fragments) ∧
      (∀ f ∈ fragments, ∃ g ∈ order, g.id = f.id) := by
  unfold resolveFragmentOrder at h
  cases htop : topPass fragments fragments { resolved := [], seen := [], visiting := [] } with
  | error e => rw [htop] at h; exact absurd h (by simp)
  | ok st =>
    rw [htop] at h
    injection h with h
    have hinit : GoodState fragments { resolved := [], seen := [], visiting := [] } := by
      refine ⟨by simp, by simp, ?_⟩
      intro i hi
      simp at hi
    obtain ⟨⟨hseen, hsub, htopo⟩, hall⟩ :=
      topPass_good fragments fragments _ st (fun _ hf => hf) htop hinit
    rw [← h]
    exact ⟨htopo, hsub, fun f hf => (hseen f.id).mp (hall f hf)⟩

/-- The number of catalog ids not currently on the visiting stack: the
termination measure of the traversal. -/
def fuelMeasure (fragments : List TemplateFragment) (s : ResolveState) : ℕ :=
  ((fragments.map (·.id)).toFinset \ s.visiting.toFinset).card

theorem depsFold_no_fuel (fragments : List TemplateFragment)
    {step : String → ResolveState → Except ResolveError ResolveState} (m : ℕ)
    (hstepfuel : ∀ d s, fuelMeasure fragments s < m → step d s ≠ .error .outOfFuel)
    (hstepev : ∀ d s s', step d s = .ok s' → StateEvolves s s') :
    ∀ (ds : List String) (st : ResolveState), fuelMeasure fragments st < m →
      depsFold step ds st ≠ .error .outOfFuel := by
  intro ds
  induction ds with
  | nil => intro st _ h; simp [depsFold] at h
  | cons d rest ih =>
    intro st hfuel h
    simp only [depsFold] at h
    cases hx : step d st with
    | error e =>
      rw [hx] at h
      injection h with h
      rw [h] at hx
      exact hstepfuel d st hfuel hx
    | ok s2 =>
      rw [hx] at h
      have hmeq : fuelMeasure fragments s2 = fuelMeasure fragments st := by
        unfold fuelMeasure
        rw [(hstepev d st s2 hx).1]
      exact ih s2 (hmeq ▸ hfuel) h

theorem visit_no_fuel (fragments : List TemplateFragment) :
    ∀ (n : ℕ) (f : TemplateFragment) (st : ResolveState), f ∈ fragments →
      fuelMeasure fragments st < n → visit fragments n f st ≠ .error .outOfFuel := by
  intro n
  induction n with
  | zero => intro f st _ hfuel _; omega
  | succ m ih =>
    intro f st hf hfuel h
    simp only [visit] at h
    by_cases h1 : f.id ∈ st.seen
    · rw [if_pos h1] at h; simp at h
    · rw [if_neg h1] at h
      by_cases h2 : f.id ∈ st.visiting
      · rw [if_pos h2] at h; simp at h
      · rw [if_neg h2] at h
        have hidmem : f.id ∈ (fragments.map (·.id)).toFinset := by
          rw [List.mem_toFinset]
          exact List.mem_map_of_mem (·.id) hf
        have hidnv : f.id ∉ st.visiting.toFinset := by
          rw [List.mem_toFinset]
          exact h2
        have hlt : fuelMeasure fragments { st with visiting := f.id :: st.visiting }
            < fuelMeasure fragments st := by
          unfold fuelMeasure
          apply Finset.card_lt_card
          have hsub : (fragments.map (·.id)).toFinset \ (f.id :: st.visiting).toFinset
              ⊆ (fragments.map (·.id)).toFinset \ st.visiting.toFinset := by
            apply Finset.sdiff_subset_sdiff (Finset.Subset.refl _)
            rw [List.toFinset_cons]
            exact Finset.subset_insert _ _
          rw [Finset.ssubset_iff_of_subset hsub]
          refine ⟨f.id, Finset.mem_sdiff.mpr ⟨hidmem, hidnv⟩, ?_⟩
          rw [Finset.mem_sdiff, List.toFinset_cons]
          simp
        have hfuel1 : fuelMeasure fragments { st with visiting := f.id :: st.visiting } < m := by
          omega
        cases hd : depsFold (fun depId s =>
            match fragments.find? (fun f => f.id == depId) with
            | some dep => visit fragments m dep s
            | none => .ok s)
          f.dependencies { st with visiting := f.id :: st.visiting } with
        | error e =>
          rw [hd] at h
          injection h with h
          rw [h] at hd
          refine depsFold_no_fuel fragments m ?_ ?_ f.dependencies _ hfuel1 hd
          · intro d s hfs hstep
            cases hfind : fragments.find? (fun f => f.id == d) with
            | none => rw [hfind] at hstep; simp at hstep
            | some dep =>
              rw [hfind] at hstep
              exact ih dep s (List.mem_of_find?_eq_some hfind) hfs hstep
          · intro d s s' hstep
            cases hfind : fragments.find? (fun f => f.id == d) with
            | none =>
              rw [hfind] at hstep
              injection hstep with hstep
              rw [← hstep]
              exact StateEvolves.refl s
            | some dep =>
              rw [hfind] at hstep
              exact visit_evolves fragments m dep s s' hstep
        | ok st2 => rw [hd] at h; simp at h

theorem topPass_no_fuel (fragments : List TemplateFragment) :
    ∀ (l : List TemplateFragment) (st : ResolveState), (∀ f ∈ l, f ∈ fragments) →
      st.visiting = [] → topPass fragments l st ≠ .error .outOfFuel := by
  intro l
  induction l with
  | nil => intro st _ _ h; simp [topPass] at h
  | cons f rest ih =>
    intro st hsub hvis h
    simp only [topPass] at h
    have hfuel : fuelMeasure fragments st < fragments.length + 1 := by
      unfold fuelMeasure
      rw [hvis]
      simp only [List.toFinset_nil, Finset.sdiff_empty]
      calc (fragments.map (·.id)).toFinset.card
          ≤ (fragments.map (·.id)).length := List.toFinset_card_le _
        _ = fragments.length := List.length_map _ _
        _ < fragments.length + 1 := Nat.lt_succ_self _
    cases hx : visit fragments (fragments.length + 1) f st with
    | error e =>
      rw [hx] at h
      injection h with h
      rw [h] at hx
      exact visit_no_fuel fragments _ f st (hsub f (by simp)) hfuel hx
    | ok st2 =>
      rw [hx] at h
      have hvis2 : st2.visiting = [] := by
        rw [(visit_evolves fragments _ f st st2 hx).1, hvis]
      exact ih st2 (fun g hgm => hsub g (List.mem_cons_of_mem _ hgm)) hvis2 h

/-- The fuel budget of the embedding is never exhausted. -/
theorem resolveFragmentOrder_no_fuel (fragments : List TemplateFragment) :
    resolveFragmentOrder fragments ≠ .error .outOfFuel := by
  intro h
  unfold resolveFragmentOrder at h
  cases htop : topPass fragments fragments { resolved := [], seen := [], visiting := [] } with
  | error e =>
    rw [htop] at h
    injection h with h
    rw [h] at htop
    exact topPass_no_fuel fragments fragments _ (fun _ hf => hf) rfl htop
  | ok st => rw [htop] at h; simp at h

/-- The dependency edge over the listed ids: `a` depends directly on `b`, and
both endpoints belong to fragments of the list. -/
def DependsOn (fragments : List TemplateFragment) (a b : String) : Prop :=
  (∃ f ∈ fragments, f.id = a ∧ b ∈ f.dependencies) ∧ (∃ g ∈ fragments, g.id = b)

theorem depsFold_circular (fragments : List TemplateFragment)
    {step : String → ResolveState → Except ResolveError ResolveState}
    (hstepok : ∀ d s s', step d s = .ok s' → s'.visiting = s.visiting)
    (hsteperr : ∀ d s c,
      (∀ x ∈ s.visiting, (∃ g ∈ fragments, g.id = d) →
        Relation.TransGen (DependsOn fragments) x d) →
      step d s = .error (ResolveError.circular c) →
      Relation.TransGen (DependsOn fragments) c c) :
    ∀ (ds : List String) (st : ResolveState) (c : String),
      (∀ x ∈ st.visiting, ∀ d ∈ ds, (∃ g ∈ fragments, g.id = d) →
        Relation.TransGen (DependsOn fragments) x d) →
      depsFold step ds st = .error (ResolveError.circular c) →
      Relation.TransGen (DependsOn fragments) c c := by
  intro ds
  induction ds with
  | nil => intro st c _ h; simp [depsFold] at h
  | cons d rest ih =>
    intro st c hyp h
    simp only [depsFold] at h
    cases hx : step d st with
    | error e =>
      rw [hx] at h
      injection h with h
      rw [h] at hx
      exact hsteperr d st c (fun x hx' hpres => hyp x hx' d (by simp) hpres) hx
    | ok s2 =>
      rw [hx] at h
      refine ih s2 c ?_ h
      intro x hx' d' hd' hpres
      rw [hstepok d st s2 hx] at hx'
      exact hyp x hx' d' (List.mem_cons_of_mem _ hd') hpres

theorem visit_circular (fragments : List TemplateFragment) :
    ∀ (n : ℕ) (f : TemplateFragment) (st : ResolveState) (c : String), f ∈ fragments →
      (∀ x ∈ st.visiting, Relation.TransGen (DependsOn fragments) x f.id) →
      visit fragments n f st = .error (ResolveError.circular c) →
      Relation.TransGen (DependsOn fragments) c c := by
  intro n
  induction n with
  | zero => intro f st c _ _ h; simp [visit] at h
  | succ m ih =>
    intro f st c hf hyp h
    simp only [visit] at h
    by_cases h1 : f.id ∈ st.seen
    · rw [if_pos h1] at h; simp at h
    · rw [if_neg h1] at h
      by_cases h2 : f.id ∈ st.visiting
      · rw [if_pos h2] at h
        injection h with h
        injection h with h
        rw [← h]
        exact hyp f.id h2
      · rw [if_neg h2] at h
        cases hd : depsFold (fun depId s =>
            match fragments.find? (fun f => f.id == depId) with
            | some dep => visit fragments m dep s
            | none => .ok s)
          f.dependencies { st with visiting := f.id :: st.visiting } with
        | ok st2 => rw [hd] at h; simp at h
        | error e =>
          rw [hd] at h
          injection h with h
          rw [h] at hd
          refine depsFold_circular fragments ?_ ?_ f.dependencies _ c ?_ hd
          · intro d s s' hstep
            cases hfind : fragments.find? (fun f => f.id == d) with
            | none =>
              rw [hfind] at hstep
              injection hstep with hstep
              rw [← hstep]
            | some dep =>
              rw [hfind] at hstep
              exact (visit_evolves fragments m dep s s' hstep).1
          · intro d s c' hyp' hstep
            cases hfind : fragments.find? (fun f => f.id == d) with
            | none => rw [hfind] at hstep; simp at hstep
            | some dep =>
              rw [hfind] at hstep
              have hdepmem : dep ∈ fragments := List.mem_of_find?_eq_some hfind
              have hdepid : dep.id = d := by
                have := List.find?_some hfind
                simpa using this
              refine ih dep s c' hdepmem ?_ hstep
              intro x hx'
              rw [hdepid]
              exact hyp' x hx' ⟨dep, hdepmem, hdepid⟩
          · intro x hx' d hd hpres
            rcases List.mem_cons.mp hx' with rfl | hmem
            · exact Relation.TransGen.single ⟨⟨f, hf, rfl, hd⟩, hpres⟩
            · exact Relation.TransGen.tail (hyp x hmem) ⟨⟨f, hf, rfl, hd⟩, hpres⟩

theorem topPass_circular (fragments : List TemplateFragment) :
    ∀ (l : List TemplateFragment) (st : ResolveState) (c : String),
      (∀ f ∈ l, f ∈ fragments) → st.visiting = [] →
      topPass fragments l st = .error (ResolveError.circular c) →
      Relation.TransGen (DependsOn fragments) c c := by
  intro l
  induction l with
  | nil => intro st c _ _ h; simp [topPass] at h
  | cons f rest ih =>
    intro st c hsub hvis h
    simp only [topPass] at h
    cases hx : visit fragments (fragments.length + 1) f st with
    | error e =>
      rw [hx] at h
      injection h with h
      rw [h] at hx
      refine visit_circular fragments _ f st c (hsub f (by simp)) ?_ hx
      intro x hx'
      rw [hvis] at hx'
      simp at hx'
    | ok st2 =>
      rw [hx] at h
      have hvis2 : st2.visiting = [] := by
        rw [(visit_evolves fragments _ f st st2 hx).1, hvis]
      exact ih st2 c (fun g hgm => hsub g (List.mem_cons_of_mem _ hgm)) hvis2 h

/-- The id named by a circular-dependency error really lies on a dependency
cycle of the input list. -/
theorem resolveFragmentOrder_circular (fragments : List TemplateFragment) (c : String)
    (h : resolveFragmentOrder fragments = .error (ResolveError.circular c)) :
    Relation.TransGen (DependsOn fragments) c c := by
  unfold resolveFragmentOrder at h
  cases htop : topPass fragments fragments { resolved := [], seen := [], visiting := [] } with
  | error e =>
    rw [htop] at h
    injection h with h
    rw [h] at htop
    exact topPass_circular fragments fragments _ c (fun _ hf => hf) rfl htop
  | ok st => rw [htop] at h; simp at h

/-- First-occurrence indices are minimal. -/
theorem indexOf_le_of_getElem {l : List String} {a : String} :
    ∀ {j : ℕ} (hj : j < l.length), l[j] = a → l.indexOf a ≤ j := by
  induction l with
  | nil => intro j hj _; simp at hj
  | cons b t ih =>
    intro j hj hget
    cases j with
    | zero =>
      simp at hget
      rw [hget]
      simp [List.indexOf_cons]
    | succ k =>
      rw [List.indexOf_cons]
      cases hbe : b == a with
      | true => simp
      | false =>
        simp only [cond_false]
        have hk : k < t.length := by simpa using hj
        have : t[k] = a := by simpa using hget
        have := ih hk this
        omega

/-- A successful resolution certifies that the dependency graph over the
listed ids is acyclic (given pairwise-distinct ids). -/
theorem resolveFragmentOrder_ok_acyclic (fragments order : List TemplateFragment)
    (hnodup : (fragments.map (·.id)).Nodup)
    (h : resolveFragmentOrder fragments = .ok order) :
    ∀ x, ¬ Relation.TransGen (DependsOn fragments) x x := by
  obtain ⟨htopo, hsub, hcover⟩ := resolveFragmentOrder_ok_props fragments order h
  have hedge : ∀ a b, DependsOn fragments a b →
      (order.map (·.id)).indexOf b < (order.map (·.id)).indexOf a := by
    rintro a b ⟨⟨f, hf, hfid, hbd⟩, hbpres⟩
    obtain ⟨e, he, heid⟩ := hcover f hf
    have hamem : a ∈ order.map (·.id) := by
      rw [← hfid, ← heid]
      exact List.mem_map_of_mem (·.id) he
    have hia : (order.map (·.id)).indexOf a < (order.map (·.id)).length :=
      List.indexOf_lt_length.mpr hamem
    have hia' : (order.map (·.id)).indexOf a < order.length := by
      simpa using hia
    have hgeta : (order.get ⟨(order.map (·.id)).indexOf a, hia'⟩).id = a := by
      have h1 : (order.map (·.id))[(order.map (·.id)).indexOf a] = a :=
        List.getElem_indexOf hia
      rw [List.getElem_map] at h1
      simpa [List.get_eq_getElem] using h1
    have hmemget : order.get ⟨(order.map (·.id)).indexOf a, hia'⟩ ∈ order :=
      List.get_mem _ _ hia'
    have hgf : order.get ⟨(order.map (·.id)).indexOf a, hia'⟩ = f := by
      apply List.inj_on_of_nodup_map hnodup (hsub _ hmemget) hf
      rw [hgeta, hfid]
    have hbdep : b ∈ (order.get ⟨(order.map (·.id)).indexOf a, hia'⟩).dependencies := by
      rw [hgf]
      exact hbd
    obtain ⟨j, hj, hji, hjid⟩ := htopo _ hia' b hbdep hbpres
    have hjlt : j < (order.map (·.id)).length := by simpa using hj
    have hjmap : (order.map (·.id))[j] = b := by
      rw [List.getElem_map]
      simpa [List.get_eq_getElem] using hjid
    have : (order.map (·.id)).indexOf b ≤ j :=
      indexOf_le_of_getElem hjlt hjmap
    omega
  intro x hx
  have hmono : ∀ y z, Relation.TransGen (DependsOn fragments) y z →
      (order.map (·.id)).indexOf z < (order.map (·.id)).indexOf y := by
    intro y z hyz
    induction hyz with
    | single h1 => exact hedge _ _ h1
    | tail _ h1 ih => exact lt_trans (hedge _ _ h1) ih
  exact absurd (hmono x x hx) (lt_irrefl _)

/-- C2: for every selected fragment list whose dependency graph over the
listed ids is acyclic, `resolveFragmentOrder` succeeds with an order in which
every fragment appears at a strictly later index than each of its declared
dependencies that is present in the list. -/
theorem C2_resolve_order_topological (fragments : List TemplateFragment)
    (hacyc : ∀ x, ¬ Relation.TransGen (DependsOn fragments) x x) :
    ∃ order, resolveFragmentOrder fragments = .ok order ∧ TopoInv fragments order := by
  cases hres : resolveFragmentOrder fragments with
  | ok order =>
    exact ⟨order, rfl, (resolveFragmentOrder_ok_props fragments order hres).1⟩
  | error e =>
    cases e with
    | circular c =>
      exact absurd (resolveFragmentOrder_circular fragments c hres) (hacyc c)
    | outOfFuel => exact absurd hres (resolveFragmentOrder_no_fuel fragments)

/-- The demo catalog [A, B] has only the edge from "b" to "a". -/
theorem demoAB_edge {x y : String} (h : DependsOn [fragA, fragB] x y) :
    x = "b" ∧ y = "a" := by
  obtain ⟨⟨f, hf, hfid, hyd⟩, _⟩ := h
  rcases List.mem_cons.mp hf with rfl | hf'
  · exact absurd hyd (by simp [fragA])
  · rcases List.mem_cons.mp hf' with rfl | hf''
    · have hy : y = "a" := by simpa [fragB] using hyd
      exact ⟨by rw [← hfid]; rfl, hy⟩
    · simp at hf''

theorem demoAB_trans {x y : String}
    (h : Relation.TransGen (DependsOn [fragA, fragB]) x y) : x = "b" ∧ y = "a" := by
  induction h with
  | single h1 => exact demoAB_edge h1
  | tail _ h1 ih =>
    obtain ⟨hb1, _⟩ := demoAB_edge h1
    rw [ih.2] at hb1
    simp at hb1

theorem demoAB_acyclic : ∀ x, ¬ Relation.TransGen (DependsOn [fragA, fragB]) x x := by
  intro x hx
  obtain ⟨h1, h2⟩ := demoAB_trans hx
  rw [h1] at h2
  simp at h2

/-- Witness for C2: the concrete acyclic catalog [A, B]. -/
theorem C2_resolve_order_topological_witness :
    ∃ order, resolveFragmentOrder [fragA, fragB] = .ok order ∧
      TopoInv [fragA, fragB] order :=
  C2_resolve_order_topological [fragA, fragB] demoAB_acyclic

/-- C3: for every fragment list (with pairwise-distinct ids) containing two
fragments that list each other as dependencies, `resolveFragmentOrder` raises
the fatal circular-dependency error, naming an id that lies on a dependency
cycle; it never returns an order. -/
theorem C3_mutual_dependency_fatal (fragments : List TemplateFragment)
    (A B : TemplateFragment) (hnodup : (fragments.map (·.id)).Nodup)
    (hA : A ∈ fragments) (hB : B ∈ fragments)
    (hAB : B.id ∈ A.dependencies) (hBA : A.id ∈ B.dependencies) :
    ∃ x, resolveFragmentOrder fragments = .error (ResolveError.circular x) ∧
      Relation.TransGen (DependsOn fragments) x x := by
  have hcycle : Relation.TransGen (DependsOn fragments) A.id A.id :=
    Relation.TransGen.head ⟨⟨A, hA, rfl, hAB⟩, ⟨B, hB, rfl⟩⟩
      (Relation.TransGen.single ⟨⟨B, hB, rfl, hBA⟩, ⟨A, hA, rfl⟩⟩)
  cases hres : resolveFragmentOrder fragments with
  | ok order =>
    exact absurd hcycle (resolveFragmentOrder_ok_acyclic fragments order hnodup hres A.id)
  | error e =>
    cases e with
    | circular c => exact ⟨c, rfl, resolveFragmentOrder_circular fragments c hres⟩
    | outOfFuel => exact absurd hres (resolveFragmentOrder_no_fuel fragments)

/-- A pair of fragments that depend on each other. -/
def fragP : TemplateFragment := { id := "p", name := "P", dependencies := ["q"] }

def fragQ : TemplateFragment := { id := "q", name := "Q", dependencies := ["p"] }

/-- Witness for C3 at the concrete mutual pair. -/
theorem C3_mutual_dependency_fatal_witness :
    ∃ x, resolveFragmentOrder [fragP, fragQ] = .error (ResolveError.circular x) ∧
      Relation.TransGen (DependsOn [fragP, fragQ]) x x :=
  C3_mutual_dependency_fatal [fragP, fragQ] fragP fragQ (by decide)
    (by simp) (by simp) (by decide) (by decide)

/-! ## Recommendation scorer (src/recommender/scorer.ts, types.ts)

TypeScript numbers are embedded as `ℚ`.  The knowledge-base compatibility
lookups `areCompatible` and `getIncompatibleOptions` (knowledge/compatibility.ts)
are imported by the scorer but their source is not part of the repository
snapshot; they are threaded through as explicit function parameters, and every
theorem below holds for all of them.  JavaScript string operations are
embedded directly: `toLowerCase` as a character-wise lower-casing, `includes` as a
contiguous-substring search. -/

/-- `needle` occurs at the start of `hay`. -/
def charsStart : List Char → List Char → Bool
  | [], _ => true
  | _ :: _, [] => false
  | a :: as, b :: bs => a == b && charsStart as bs

/-- `needle` occurs contiguously somewhere in `hay`. -/
def charsHasSub (needle : List Char) : List Char → Bool
  | [] => needle.isEmpty
  | b :: t => charsStart needle (b :: t) || charsHasSub needle t

/-- JavaScript `hay.includes(needle)`. -/
def strIncludes (hay needle : String) : Bool :=
  charsHasSub needle.data hay.data

/-- JavaScript `toLowerCase` (ASCII range, which covers the catalog data):
lower-case every character. -/
def strToLower (s : String) : String :=
  ⟨s.data.map Char.toLower⟩

/-- JavaScript `Math.round`: round half toward positive infinity. -/
def jsRound (q : ℚ) : ℤ := ⌊q + 1/2⌋

/-- JavaScript `Math.max` on two numbers. -/
def jsMax (a b : ℚ) : ℚ := if a ≤ b then b else a

/-- JavaScript `Math.min` on two numbers. -/
def jsMin (a b : ℚ) : ℚ := if a ≤ b then a else b

theorem le_jsMax_left (a b : ℚ) : a ≤ jsMax a b := by
  unfold jsMax
  split
  · assumption
  · exact le_refl a

theorem jsMax_le {a b c : ℚ} (h1 : a ≤ c) (h2 : b ≤ c) : jsMax a b ≤ c := by
  unfold jsMax
  split <;> assumption

theorem jsMin_le_left (a b : ℚ) : jsMin a b ≤ a := by
  unfold jsMin
  split
  · exact le_refl a
  · exact le_of_lt (lt_of_not_le (by assumption))

inductive Complexity where
  | low
  | medium
  | high
deriving DecidableEq, Repr

def Complexity.toStr : Complexity → String
  | .low => "low"
  | .medium => "medium"
  | .high => "high"

inductive ExperienceLevel where
  | beginner
  | intermediate
  | advanced
  | expert
deriving DecidableEq, Repr

def ExperienceLevel.toStr : ExperienceLevel → String
  | .beginner => "beginner"
  | .intermediate => "intermediate"
  | .advanced => "advanced"
  | .expert => "expert"

inductive BudgetLevel where
  | free
  | low
  | medium
  | high
  | unlimited
deriving DecidableEq, Repr

def BudgetLevel.toStr : BudgetLevel → String
  | .free => "free"
  | .low => "low"
  | .medium => "medium"
  | .high => "high"
  | .unlimited => "unlimited"

inductive ScaleRequirement where
  | prototype
  | small
  | medium
  | large
  | enterprise
deriving DecidableEq, Repr

inductive TimelineUrgency where
  | urgent
  | normal
  | flexible
deriving DecidableEq, Repr

structure CostTier where
  free : Bool
  hobbyist : Option String
  startup : Option String
  enterprise : Option String
deriving DecidableEq, Repr

/-- `StackOption` of src/knowledge/types.ts. -/
structure StackOption where
  id : String
  name : String
  description : String := ""
  pros : List String := []
  cons : List String := []
  tradeoffs : List String := []
  bestFor : List String := []
  monthlyCost : CostTier := { free := true, hobbyist := none, startup := none, enterprise := none }
  requiredEnvVars : List String := []
  compatibleWith : List String := []
  incompatibleWith : List String := []
  complexity : Complexity := .low
  documentationUrl : Option String := none
  logoEmoji : Option String := none
deriving DecidableEq, Repr

structure ScoreWeights where
  complexity : ℚ
  cost : ℚ
  compatibility : ℚ
  features : ℚ
  ecosystem : ℚ
  performance : ℚ
deriving DecidableEq, Repr

def defaultWeights : ScoreWeights :=
  { complexity := 0.2, cost := 0.15, compatibility := 0.25,
    features := 0.2, ecosystem := 0.1, performance := 0.1 }

def beginnerWeights : ScoreWeights :=
  { complexity := 0.35, cost := 0.1, compatibility := 0.2,
    features := 0.15, ecosystem := 0.15, performance := 0.05 }

def enterpriseWeights : ScoreWeights :=
  { complexity := 0.1, cost := 0.1, compatibility := 0.2,
    features := 0.25, ecosystem := 0.15, performance := 0.2 }

/-- `UserRequirements` of src/recommender/types.ts (fields the scorer reads;
`projectType` and `runtime` are opaque strings here). -/
structure UserRequirements where
  projectType : String := ""
  runtime : String := ""
  budget : BudgetLevel
  experience : ExperienceLevel
  scale : ScaleRequirement
  timeline : TimelineUrgency
  priorities : List String := []
  mustHaveFeatures : List String := []
  niceToHaveFeatures : List String := []
  excludeOptions : List String := []
  preferredOptions : List String := []
  existingStack : List String := []
  teamSize : Option ℚ := none
  isOpenSource : Option Bool := none
  needsEnterprise : Option Bool := none
deriving DecidableEq, Repr

/-- `ScoringContext`: requirements, active weight vector, and committed
selections (an ordered record).  The `compatibilityMatrix` field of the TS
interface is never read by `scoreOption` and is omitted. -/
structure ScoringContext where
  requirements : UserRequirements
  weights : ScoreWeights
  existingSelections : List (String × String) := []
deriving DecidableEq, Repr

inductive Impact where
  | positive
  | negative
  | neutral
deriving DecidableEq, Repr

structure ReasoningItem where
  factor : String
  impact : Impact
  weight : ℚ
  explanation : String
deriving DecidableEq, Repr

structure Warning where
  severity : String
  category : String
  message : String
  suggestion : Option String := none
deriving DecidableEq, Repr

/-- Result shape of the sub-scorers (`warning` stays `none` for the
sub-scorers that return no warning in TS). -/
structure ScorePart where
  score : ℚ
  reasoning : ReasoningItem
  warning : Option Warning := none
deriving DecidableEq, Repr

structure ScoredOption where
  option : StackOption
  score : ℚ
  reasoning : List ReasoningItem
  warnings : List Warning
  alternatives : List String
  rank : ℕ
deriving DecidableEq, Repr

def complexityScores : Complexity → ℚ
  | .low => 100
  | .medium => 60
  | .high => 30

def complexityPreference : ExperienceLevel → List Complexity
  | .beginner => [.low]
  | .intermediate => [.low, .medium]
  | .advanced => [.medium, .high]
  | .expert => [.low, .medium, .high]

/-- Budget ceilings; `none` stands for the JavaScript `Infinity` of the
`unlimited` tier (a finite cost never exceeds it). -/
def budgetLevelValues : BudgetLevel → Option ℚ
  | .free => some 0
  | .low => some 25
  | .medium => some 100
  | .high => some 500
  | .unlimited => none

/-- `getWeightsForProfile` from scorer.ts. -/
def getWeightsForProfile (requirements : UserRequirements) : ScoreWeights :=
  if requirements.experience == .beginner then
    beginnerWeights
  else if requirements.needsEnterprise.getD false || requirements.scale == .enterprise then
    enterpriseWeights
  else
    defaultWeights

/-- `parseInt(hobbyistCost.replace(/[^0-9]/g, ''), 10) || 0`: the number read
from the digit characters of the string (0 when there are none). -/
def digitsVal (s : String) : ℚ :=
  (((s.data.filter Char.isDigit).foldl (fun n c => 10 * n + (c.toNat - 48)) 0 : ℕ) : ℚ)

/-- `scoreComplexity` from scorer.ts. -/
def scoreComplexity (option : StackOption) (requirements : UserRequirements) : ScorePart :=
  let preferredComplexities := complexityPreference requirements.experience
  let isPreferredC := preferredComplexities.contains option.complexity
  let baseScore := complexityScores option.complexity
  let adjusted : ℚ × Impact × String :=
    if isPreferredC then
      (baseScore + 20, .positive,
        option.name ++ "\u0027s " ++ option.complexity.toStr ++
          " complexity aligns well with your " ++ requirements.experience.toStr ++
          " experience level")
    else if requirements.experience == .beginner && option.complexity == .high then
      (baseScore - 30, .negative,
        option.name ++ " has high complexity which may be challenging for beginners")
    else if requirements.timeline == .urgent && option.complexity == .high then
      (baseScore - 20, .negative,
        option.name ++ "\u0027s high complexity may slow down your urgent timeline")
    else
      (baseScore, .neutral, "")
  { score := jsMax 0 (jsMin 100 adjusted.1),
    reasoning :=
      { factor := "complexity", impact := adjusted.2.1, weight := adjusted.1,
        explanation := adjusted.2.2 },
    warning :=
      if !isPreferredC && option.complexity == .high then
        some { severity := "warning", category := "complexity",
               message := option.name ++ " has high complexity",
               suggestion := some "Consider alternatives if you need faster time-to-market" }
      else none }

/-- `scoreCost` from scorer.ts.  The `if (hobbyistCost)` truthiness check
skips both a missing and an empty hobbyist price band, leaving the defaults
(score 100, neutral, empty explanation). -/
def scoreCost (option : StackOption) (requirements : UserRequirements) : ScorePart :=
  let monthlyCost := option.monthlyCost
  let budgetLimit := budgetLevelValues requirements.budget
  if monthlyCost.free && requirements.budget == .free then
    { score := 100,
      reasoning := { factor := "cost", impact := .positive, weight := 100,
                     explanation := option.name ++ " is free, matching your budget requirement" } }
  else if monthlyCost.free then
    { score := 90,
      reasoning := { factor := "cost", impact := .positive, weight := 90,
                     explanation := option.name ++ " offers a free tier" } }
  else
    match monthlyCost.hobbyist with
    | some hobbyistCost =>
      if hobbyistCost == "" then
        { score := 100,
          reasoning := { factor := "cost", impact := .neutral, weight := 100,
                         explanation := "" } }
      else
        let costValue := digitsVal hobbyistCost
        let exceeds :=
          match budgetLimit with
          | some limit => decide (costValue > limit)
          | none => false
        if exceeds && !(requirements.budget == .unlimited) then
          { score := 30,
            reasoning := { factor := "cost", impact := .negative, weight := 30,
                           explanation := option.name ++ "\u0027s cost (" ++ hobbyistCost ++
                           "/mo) exceeds your " ++ requirements.budget.toStr ++ " budget" },
            warning := some { severity := "warning", category := "cost",
                              message := option.name ++ " may exceed your budget at " ++ hobbyistCost ++ "/month",
                              suggestion := some "Consider free alternatives or adjust budget expectations" } }
        else
          { score := 70,
            reasoning := { factor := "cost", impact := .neutral, weight := 70,
                           explanation := option.name ++ " costs " ++ hobbyistCost ++ "/mo, within your budget" } }
    | none =>
      { score := 100,
        reasoning := { factor := "cost", impact := .neutral, weight := 100,
                       explanation := "" } }

/-- `scoreCompatibility` from scorer.ts; `areCompatible` is the (externally
defined) knowledge-base lookup. -/
def scoreCompatibility (areCompatible : String → String → Bool)
    (option : StackOption) (context : ScoringContext) : ScorePart :=
  let existingIds := (context.existingSelections.map Prod.snd).filter
    (fun id => !(id == "") && !(id == "none"))
  if existingIds.length == 0 then
    { score := 100,
      reasoning := { factor := "compatibility", impact := .neutral, weight := 100,
                     explanation := "No existing selections to check compatibility against" } }
  else
    let incompatibilities := existingIds.filter (fun existingId => !(areCompatible option.id existingId))
    let incompatibleCount := incompatibilities.length
    let score : ℚ := if incompatibleCount > 0 then 20 else 100
    { score := score,
      reasoning :=
        { factor := "compatibility",
          impact := if incompatibleCount > 0 then .negative else .positive,
          weight := score,
          explanation :=
            if incompatibleCount > 0 then
              option.name ++ " is incompatible with: " ++ String.intercalate ", " incompatibilities
            else
              option.name ++ " is compatible with all your selected options" },
      warning :=
        if incompatibleCount > 0 then
          some { severity := "critical", category := "compatibility",
                 message := option.name ++ " conflicts with " ++ String.intercalate ", " incompatibilities,
                 suggestion := some "Choose a compatible alternative or change conflicting selections" }
        else none }

/-- `scoreFeatures` from scorer.ts: base 70, +10 per matched must-have, −15
per missing must-have, +5 per matched nice-to-have, +8 per aligned priority;
all matching is lowercase substring search over `pros ++ bestFor`. -/
def scoreFeatures (option : StackOption) (requirements : UserRequirements) : ScorePart :=
  let optionFeatures := (option.pros ++ option.bestFor).map strToLower
  let mustMatches := requirements.mustHaveFeatures.filter
    (fun feature => optionFeatures.any (fun f => strIncludes f (strToLower feature)))
  let missing := requirements.mustHaveFeatures.filter
    (fun feature => !(optionFeatures.any (fun f => strIncludes f (strToLower feature))))
  let niceMatches := requirements.niceToHaveFeatures.filter
    (fun feature => optionFeatures.any (fun f => strIncludes f (strToLower feature)))
  let aligned := requirements.priorities.filter
    (fun priority =>
      option.pros.any (fun p => strIncludes (strToLower p) (strToLower priority)) ||
      option.bestFor.any (fun b => strIncludes (strToLower b) (strToLower priority)))
  let score : ℚ := 70 + 10 * mustMatches.length - 15 * missing.length +
    5 * niceMatches.length + 8 * aligned.length
  let matchList := mustMatches ++ niceMatches
  { score := jsMax 0 (jsMin 100 score),
    reasoning :=
      { factor := "features",
        impact :=
          if missing.length > 0 then .negative
          else if matchList.length > 0 then .positive
          else .neutral,
        weight := score,
        explanation :=
          if matchList.length > 0 then
            option.name ++ " matches: " ++ String.intercalate ", " matchList
          else if missing.length > 0 then
            option.name ++ " missing: " ++ String.intercalate ", " missing
          else
            option.name ++ " partially matches your requirements" } }

/-- `scoreEcosystem` from scorer.ts: base 70, +10 for a (non-empty)
documentation link, +5 per maturity phrase found in `pros`, −10 per
immaturity phrase found in `cons`. -/
def scoreEcosystem (option : StackOption) : ScorePart :=
  let docBonus : ℚ :=
    match option.documentationUrl with
    | some url => if url == "" then 0 else 10
    | none => 0
  let ecosystemIndicators := ["large community", "active", "mature", "established",
    "popular", "widely used"]
  let newIndicators := ["newer", "young", "less mature", "smaller community"]
  let matched := ecosystemIndicators.filter
    (fun indicator => option.pros.any (fun p => strIncludes (strToLower p) indicator))
  let matchedNew := newIndicators.filter
    (fun indicator => option.cons.any (fun c => strIncludes (strToLower c) indicator))
  let score : ℚ := 70 + docBonus + 5 * matched.length - 10 * matchedNew.length
  { score := jsMax 0 (jsMin 100 score),
    reasoning :=
      { factor := "ecosystem",
        impact := if score ≥ 70 then .positive else .neutral,
        weight := score,
        explanation :=
          if score ≥ 80 then option.name ++ " has a mature ecosystem"
          else if score ≥ 60 then option.name ++ " has a growing ecosystem"
          else option.name ++ " has a smaller ecosystem" } }

/-- `scorePreferences` from scorer.ts. -/
def scorePreferences (option : StackOption) (requirements : UserRequirements) : ScorePart :=
  if requirements.excludeOptions.contains option.id then
    { score := 0,
      reasoning := { factor := "preference", impact := .negative, weight := 0,
                     explanation := option.name ++ " was explicitly excluded" } }
  else if requirements.preferredOptions.contains option.id then
    { score := 100,
      reasoning := { factor := "preference", impact := .positive, weight := 100,
                     explanation := option.name ++ " was explicitly preferred" } }
  else
    { score := 70,
      reasoning := { factor := "preference", impact := .neutral, weight := 70,
                     explanation := "No explicit preference" } }

/-- `scoreOption` from scorer.ts: an excluded option short-circuits to score
0; otherwise the six sub-scores are combined as
`complexity*w.complexity + cost*w.cost + compatibility*w.compatibility +
features*w.features + ecosystem*w.ecosystem + preference*0.1`, divided by
`(sum of all six weight-vector entries) + 0.1`, rounded to two decimals and
clamped to [0, 100].  `getIncompatibleOptions` is the externally defined
knowledge-base lookup used only for the `alternatives` list. -/
def scoreOption (areCompatible : String → String → Bool)
    (getIncompatibleOptions : String → List String)
    (option : StackOption) (context : ScoringContext) : ScoredOption :=
  let requirements := context.requirements
  let weights := context.weights
  if requirements.excludeOptions.contains option.id then
    { option := option, score := 0,
      reasoning := [{ factor := "excluded", impact := .negative, weight := 0,
                      explanation := "Explicitly excluded" }],
      warnings := [], alternatives := [], rank := 999 }
  else
    let complexityResult := scoreComplexity option requirements
    let costResult := scoreCost option requirements
    let compatibilityResult := scoreCompatibility areCompatible option context
    let featuresResult := scoreFeatures option requirements
    let ecosystemResult := scoreEcosystem option
    let preferenceResult := scorePreferences option requirements
    let reasoning := [complexityResult.reasoning, costResult.reasoning,
      compatibilityResult.reasoning, featuresResult.reasoning,
      ecosystemResult.reasoning, preferenceResult.reasoning]
    let warnings := [complexityResult.warning, costResult.warning,
      compatibilityResult.warning].filterMap id
    let weightedScore :=
      complexityResult.score * weights.complexity +
      costResult.score * weights.cost +
      compatibilityResult.score * weights.compatibility +
      featuresResult.score * weights.features +
      ecosystemResult.score * weights.ecosystem +
      preferenceResult.score * (1/10)
    let totalWeight :=
      (weights.complexity + weights.cost + weights.compatibility +
        weights.features + weights.ecosystem + weights.performance) + 1/10
    let normalizedScore := ((jsRound ((weightedScore / totalWeight) * 100) : ℚ)) / 100
    let incompatible := getIncompatibleOptions option.id
    let alternatives := (option.compatibleWith.filter
      (fun id => !(incompatible.contains id) && !(id == option.id))).take 3
    { option := option,
      score := jsMax 0 (jsMin 100 normalizedScore),
      reasoning := reasoning.filter (fun r => !(r.explanation == "")),
      warnings := warnings,
      alternatives := alternatives,
      rank := 0 }

/-- C7: for every option, scoring context and compatibility lookups, the
score is within [0, 100], and an excluded option scores exactly 0. -/
theorem C7_score_bounds_and_excluded_zero (areCompatible : String → String → Bool)
    (getIncompatibleOptions : String → List String)
    (option : StackOption) (context : ScoringContext) :
    0 ≤ (scoreOption areCompatible getIncompatibleOptions option context).score ∧
    (scoreOption areCompatible getIncompatibleOptions option context).score ≤ 100 ∧
    (option.id ∈ context.requirements.excludeOptions →
      (scoreOption areCompatible getIncompatibleOptions option context).score = 0) := by
  unfold scoreOption
  by_cases hex : context.requirements.excludeOptions.contains option.id
  · rw [if_pos hex]
    exact ⟨le_refl 0, by norm_num, fun _ => rfl⟩
  · rw [if_neg hex]
    refine ⟨le_jsMax_left 0 _, jsMax_le (by norm_num) (jsMin_le_left 100 _), ?_⟩
    intro hmem
    exact absurd (by simpa using hmem) hex

/-- A sample free, low-complexity option with perfect sub-scores. -/
def perfectOption : StackOption :=
  { id := "perfect", name := "Perfect",
    pros := ["large community", "active", "mature", "established"],
    bestFor := ["alpha", "beta", "gamma"],
    monthlyCost := { free := true, hobbyist := none, startup := none, enterprise := none },
    complexity := .low,
    documentationUrl := some "https://docs.example.com" }

def perfectRequirements : UserRequirements :=
  { projectType := "web-app", runtime := "node",
    budget := .free, experience := .beginner, scale := .prototype, timeline := .normal,
    mustHaveFeatures := ["alpha", "beta", "gamma"],
    preferredOptions := ["perfect"] }

def perfectContext : ScoringContext :=
  { requirements := perfectRequirements,
    weights := getWeightsForProfile perfectRequirements,
    existingSelections := [] }

/-- Witness for C7: a concrete excluded option scores exactly 0. -/
theorem C7_score_bounds_and_excluded_zero_witness :
    (scoreOption (fun _ _ => true) (fun _ => []) perfectOption
      { perfectContext with requirements :=
          { perfectRequirements with excludeOptions := ["perfect"] } }).score = 0 :=
  (C7_score_bounds_and_excluded_zero (fun _ _ => true) (fun _ => []) perfectOption
      { perfectContext with requirements :=
          { perfectRequirements with excludeOptions := ["perfect"] } }).2.2
    (by decide)

/-- The score as the specification words it, written for comparison with the
code: the weighted sum of the six 0-100 sub-scores, each paired in order with
an entry of the active per-profile weight vector (the sixth sub-score,
explicit preference, with the sixth entry, `performance`), divided by the
total weight of that vector. -/
def specWeightedScore (areCompatible : String → String → Bool)
    (option : StackOption) (context : ScoringContext) : ℚ :=
  let w := context.weights
  ((scoreComplexity option context.requirements).score * w.complexity +
   (scoreCost option context.requirements).score * w.cost +
   (scoreCompatibility areCompatible option context).score * w.compatibility +
   (scoreFeatures option context.requirements).score * w.features +
   (scoreEcosystem option).score * w.ecosystem +
   (scorePreferences option context.requirements).score * w.performance) /
  (w.complexity + w.cost + w.compatibility + w.features + w.ecosystem + w.performance)

/-- C6 counterexample: for a non-excluded option whose six sub-scores are all
exactly 100 under the beginner profile, the spec formula (weighted sum over
the profile vector, renormalized by its total weight) gives 100, but the code
returns 95.45: the preference sub-score is weighted by a constant 0.1 instead
of a vector entry, and the divisor also counts the vector weight
(`performance`) of a sub-score that is never computed. -/
theorem C6_counterexample_weighted_sum_mismatch :
    (scoreComplexity perfectOption perfectRequirements).score = 100 ∧
    (scoreCost perfectOption perfectRequirements).score = 100 ∧
    (scoreCompatibility (fun _ _ => true) perfectOption perfectContext).score = 100 ∧
    (scoreFeatures perfectOption perfectRequirements).score = 100 ∧
    (scoreEcosystem perfectOption).score = 100 ∧
    (scorePreferences perfectOption perfectRequirements).score = 100 ∧
    specWeightedScore (fun _ _ => true) perfectOption perfectContext = 100 ∧
    (scoreOption (fun _ _ => true) (fun _ => []) perfectOption perfectContext).score
      = 1909/20 ∧
    ((1909 : ℚ)/20) ≠ 100 := by
  have hcx : (scoreComplexity perfectOption perfectContext.requirements).score = 100 := by
    norm_num +decide [scoreComplexity, perfectOption, perfectContext, perfectRequirements,
      complexityPreference, complexityScores, jsMax, jsMin]
  have hco : (scoreCost perfectOption perfectContext.requirements).score = 100 := by
    norm_num +decide [scoreCost, perfectOption, perfectContext, perfectRequirements]
  have hcp : (scoreCompatibility (fun _ _ => true) perfectOption perfectContext).score = 100 := by
    norm_num +decide [scoreCompatibility, perfectOption, perfectContext, perfectRequirements]
  have hfe : (scoreFeatures perfectOption perfectContext.requirements).score = 100 := by
    norm_num +decide [scoreFeatures, perfectOption, perfectContext, perfectRequirements,
      strToLower, strIncludes, charsHasSub, charsStart, jsMax, jsMin]
  have hec : (scoreEcosystem perfectOption).score = 100 := by
    norm_num +decide [scoreEcosystem, perfectOption, strToLower, strIncludes,
      charsHasSub, charsStart, jsMax, jsMin]
  have hpr : (scorePreferences perfectOption perfectContext.requirements).score = 100 := by
    norm_num +decide [scorePreferences, perfectOption, perfectContext, perfectRequirements]
  have hw2 : perfectContext.weights = beginnerWeights := rfl
  refine ⟨hcx, hco, hcp, hfe, hec, hpr, ?_, ?_, by norm_num⟩
  · unfold specWeightedScore
    dsimp only
    rw [hcx, hco, hcp, hfe, hec, hpr, hw2]
    norm_num [beginnerWeights]
  · unfold scoreOption
    rw [if_neg (by decide)]
    dsimp only
    rw [hcx, hco, hcp, hfe, hec, hpr, hw2]
    norm_num [beginnerWeights, jsRound, jsMax, jsMin]

/-- C6 amended: for every non-excluded option, the score is the weighted sum
of the six sub-scores in which the first five are weighted by the profile
vector entries and the preference sub-score by the constant 0.1, divided by
the sum of all six vector entries plus 0.1 (so the vector's `performance`
weight occurs only in the divisor), rounded to two decimals and clamped to
[0, 100]. -/
theorem C6_amended_score_formula (areCompatible : String → String → Bool)
    (getIncompatibleOptions : String → List String)
    (option : StackOption) (context : ScoringContext)
    (hnotex : option.id ∉ context.requirements.excludeOptions) :
    (scoreOption areCompatible getIncompatibleOptions option context).score =
      jsMax 0 (jsMin 100 ((jsRound
        ((((scoreComplexity option context.requirements).score * context.weights.complexity +
           (scoreCost option context.requirements).score * context.weights.cost +
           (scoreCompatibility areCompatible option context).score * context.weights.compatibility +
           (scoreFeatures option context.requirements).score * context.weights.features +
           (scoreEcosystem option).score * context.weights.ecosystem +
           (scorePreferences option context.requirements).score * (1/10)) /
          ((context.weights.complexity + context.weights.cost + context.weights.compatibility +
            context.weights.features + context.weights.ecosystem + context.weights.performance)
            + 1/10)) * 100) : ℚ) / 100)) := by
  unfold scoreOption
  rw [if_neg (by simpa using hnotex)]

/-- Witness for the amended C6 at the concrete perfect option. -/
theorem C6_amended_score_formula_witness :
    (scoreOption (fun _ _ => true) (fun _ => []) perfectOption perfectContext).score =
      jsMax 0 (jsMin 100 ((jsRound
        ((((scoreComplexity perfectOption perfectContext.requirements).score * perfectContext.weights.complexity +
           (scoreCost perfectOption perfectContext.requirements).score * perfectContext.weights.cost +
           (scoreCompatibility (fun _ _ => true) perfectOption perfectContext).score * perfectContext.weights.compatibility +
           (scoreFeatures perfectOption perfectContext.requirements).score * perfectContext.weights.features +
           (scoreEcosystem perfectOption).score * perfectContext.weights.ecosystem +
           (scorePreferences perfectOption perfectContext.requirements).score * (1/10)) /
          ((perfectContext.weights.complexity + perfectContext.weights.cost + perfectContext.weights.compatibility +
            perfectContext.weights.features + perfectContext.weights.ecosystem + perfectContext.weights.performance)
            + 1/10)) * 100) : ℚ) / 100)) :=
  C6_amended_score_formula (fun _ _ => true) (fun _ => []) perfectOption perfectContext
    (by decide)

/-- The comparator `(a, b) => b.score - a.score` of `scoreAndRankOptions`:
`a` may precede `b` exactly when `b.score ≤ a.score`. -/
def scoreDescending (a b : ScoredOption) : Prop := b.score ≤ a.score

instance : DecidableRel scoreDescending :=
  fun a b => inferInstanceAs (Decidable (b.score ≤ a.score))

instance : IsTotal ScoredOption scoreDescending :=
  ⟨fun a b => le_total b.score a.score⟩

instance : IsTrans ScoredOption scoreDescending :=
  ⟨fun _ _ _ hab hbc => le_trans hbc hab⟩

/-- `scoreAndRankOptions` from scorer.ts: drop `none` placeholders unless the
list is a singleton, score, sort by descending score (JavaScript sort is
stable; embedded as the stable insertion sort, which every stable sort
agrees with), then assign 1-based ranks in sorted order. -/
def scoreAndRankOptions (areCompatible : String → String → Bool)
    (getIncompatibleOptions : String → List String)
    (options : List StackOption) (context : ScoringContext) : List ScoredOption :=
  let scored := List.insertionSort scoreDescending
    ((options.filter (fun opt => !(opt.id == "none") || options.length == 1)).map
      (fun opt => scoreOption areCompatible getIncompatibleOptions opt context))
  scored.enum.map (fun p => { p.2 with rank := p.1 + 1 })

theorem scoreOption_option (areCompatible : String → String → Bool)
    (getIncompatibleOptions : String → List String)
    (option : StackOption) (context : ScoringContext) :
    (scoreOption areCompatible getIncompatibleOptions option context).option = option := by
  unfold scoreOption
  dsimp only
  split <;> rfl

/-- C10: in a list of more than one option every `none` placeholder is
omitted from the ranking, a single-element list keeps its option even when
its id is `none` (ranked 1), the output is sorted by descending score, and
every entry's rank is its 1-based position. -/
theorem C10_rank_assignment_and_none_filter (areCompatible : String → String → Bool)
    (getIncompatibleOptions : String → List String)
    (options : List StackOption) (context : ScoringContext) :
    (options.length > 1 →
      ∀ s ∈ scoreAndRankOptions areCompatible getIncompatibleOptions options context,
        s.option.id ≠ "none") ∧
    (∀ opt, options = [opt] →
      scoreAndRankOptions areCompatible getIncompatibleOptions options context =
        [{ scoreOption areCompatible getIncompatibleOptions opt context with rank := 1 }]) ∧
    (∀ (i j : ℕ)
      (hi : i < (scoreAndRankOptions areCompatible getIncompatibleOptions options context).length)
      (hj : j < (scoreAndRankOptions areCompatible getIncompatibleOptions options context).length),
      i ≤ j →
      ((scoreAndRankOptions areCompatible getIncompatibleOptions options context).get ⟨j, hj⟩).score ≤
      ((scoreAndRankOptions areCompatible getIncompatibleOptions options context).get ⟨i, hi⟩).score) ∧
    (∀ (i : ℕ)
      (hi : i < (scoreAndRankOptions areCompatible getIncompatibleOptions options context).length),
      ((scoreAndRankOptions areCompatible getIncompatibleOptions options context).get ⟨i, hi⟩).rank
        = i + 1) := by
  refine ⟨?_, ?_, ?_, ?_⟩
  · intro hlen s hs
    unfold scoreAndRankOptions at hs
    obtain ⟨p, hp, hps⟩ := List.mem_map.mp hs
    have hp2 : p.2 ∈ List.insertionSort scoreDescending
        ((options.filter (fun opt => !(opt.id == "none") || options.length == 1)).map
          (fun opt => scoreOption areCompatible getIncompatibleOptions opt context)) := by
      have := List.enum_eq_zip_range (List.insertionSort scoreDescending
        ((options.filter (fun opt => !(opt.id == "none") || options.length == 1)).map
          (fun opt => scoreOption areCompatible getIncompatibleOptions opt context)))
      rw [this] at hp
      exact (List.of_mem_zip hp).2
    have hp3 := ((List.perm_insertionSort scoreDescending _).mem_iff).mp hp2
    obtain ⟨opt, hopt, hopteq⟩ := List.mem_map.mp hp3
    obtain ⟨_, hpred⟩ := List.mem_filter.mp hopt
    have hne1 : (options.length == 1) = false := by
      have : options.length ≠ 1 := by omega
      simpa using this
    simp only [hne1, Bool.or_false] at hpred
    have hsopt : s.option = opt := by
      rw [← hps, ← hopteq]
      exact scoreOption_option areCompatible getIncompatibleOptions opt context
    rw [hsopt]
    intro hcontra
    rw [hcontra] at hpred
    simp at hpred
  · intro opt h
    subst h
    unfold scoreAndRankOptions
    have hf : List.filter (fun o => !(o.id == "none") || ([opt].length == 1)) [opt] = [opt] := by
      simp
    rw [hf]
    rfl
  · intro i j hi hj hij
    rcases Nat.lt_or_ge i j with hlt | hge
    · have hsorted := List.sorted_insertionSort scoreDescending
        ((options.filter (fun opt => !(opt.id == "none") || options.length == 1)).map
          (fun opt => scoreOption areCompatible getIncompatibleOptions opt context))
      unfold scoreAndRankOptions at hi hj ⊢
      rw [List.get_eq_getElem, List.get_eq_getElem, List.getElem_map, List.getElem_map,
        List.getElem_enum, List.getElem_enum]
      have hi' : i < (List.insertionSort scoreDescending
          ((options.filter (fun opt => !(opt.id == "none") || options.length == 1)).map
            (fun opt => scoreOption areCompatible getIncompatibleOptions opt context))).length := by
        simpa [List.enum_length] using hi
      have hj' : j < (List.insertionSort scoreDescending
          ((options.filter (fun opt => !(opt.id == "none") || options.length == 1)).map
            (fun opt => scoreOption areCompatible getIncompatibleOptions opt context))).length := by
        simpa [List.enum_length] using hj
      exact hsorted.rel_get_of_lt (a := ⟨i, hi'⟩) (b := ⟨j, hj'⟩) hlt
    · have : i = j := by omega
      subst this
      exact le_refl _
  · intro i hi
    unfold scoreAndRankOptions at hi ⊢
    rw [List.get_eq_getElem, List.getElem_map, List.getElem_enum]

/-- A placeholder option with id `none`. -/
def noneOption : StackOption := { id := "none", name := "None" }

/-- Witness for C10: a singleton list keeps its option, `none` id included,
at rank 1. -/
theorem C10_rank_assignment_and_none_filter_witness :
    scoreAndRankOptions (fun _ _ => true) (fun _ => []) [noneOption] perfectContext =
      [{ scoreOption (fun _ _ => true) (fun _ => []) noneOption perfectContext with rank := 1 }] :=
  (C10_rank_assignment_and_none_filter (fun _ _ => true) (fun _ => [])
    [noneOption] perfectContext).2.1 noneOption rfl

end Kickoff
